import Mathlib

/-!
# sm-ripext: the HTTP request builder (`httprequest.cpp`)

A shallow embedding of `HTTPRequest` and of the few library calls it makes,
followed by the properties of the builder.

Conventions.
* A C string (`const char *`, `std::string::c_str()`) is the list of its bytes
  before the terminating NUL.
* `int` and `cell_t` values are only stored and copied, never computed with;
  they are integers.
* Pointers (`json_t *`, `IChangeableForward *`) are addresses, compared by
  identity; the null pointer is `0`.
* Allocation failure is modelled exactly where the source tests for it
  (`curl_easy_init`, `curl_easy_escape`).
-/

namespace RipExt

/-! ## Bytes and C strings -/

/-- An `unsigned char`. -/
abbrev Byte := Fin 256

/-- The contents of a C string. -/
abbrev Bytes := List Byte

/-- The bytes of an ASCII string literal of the source. -/
def ascii (s : String) : Bytes := s.toList.map (fun c => Fin.ofNat c.toNat)

/-- Model of `snprintf(buf, size, fmt, ...)`: `text` is the fully formatted
output; the buffer receives at most `size - 1` bytes of it (then the NUL). -/
def snprintf (size : Nat) (text : Bytes) : Bytes := text.take (size - 1)

/-- Model of `curl_slist_append(list, s)`: a copy of `s` goes to the end. -/
def curl_slist_append (list : List Bytes) (s : Bytes) : List Bytes := list ++ [s]

/-! ## libcurl URL escaping -/

/-- Modelled from the spec: the unreserved set of `curl_easy_escape` (libcurl
is not part of this repository), "alphanumerics and a small unreserved set
passed through": `0-9 a-z A-Z - . _ ~`. -/
def Curl_isunreserved (b : Byte) : Bool :=
  (48 ≤ b.val && b.val ≤ 57) || (97 ≤ b.val && b.val ≤ 122) || (65 ≤ b.val && b.val ≤ 90)
    || b.val == 45 || b.val == 46 || b.val == 95 || b.val == 126

/-- Modelled from the spec: the upper-case hexadecimal digit `curl_easy_escape`
writes for a nibble. -/
def hexDigit (n : Nat) : Byte := if n < 10 then Fin.ofNat (48 + n) else Fin.ofNat (55 + n)

/-- Modelled from the spec: how `curl_easy_escape` writes one byte, either
unchanged or as `%XX` with two upper-case hexadecimal digits. -/
def escapeByte (b : Byte) : Bytes :=
  if Curl_isunreserved b then [b] else [37, hexDigit (b.val / 16), hexDigit (b.val % 16)]

/-- Modelled from the spec: the text `curl_easy_escape` produces for a string. -/
def escapeBytes : Bytes → Bytes
  | [] => []
  | b :: s => escapeByte b ++ escapeBytes s

/-- Modelled from the spec: `curl_easy_escape(curl, s, 0)`. The call returns
NULL when it fails (allocation, input length limit); `ok` says whether this
call succeeds. -/
def curl_easy_escape (ok : Bool) (s : Bytes) : Option Bytes :=
  if ok then some (escapeBytes s) else none

/-- What libcurl does during one `Append*Param` call: whether `curl_easy_init`
returns a handle, and whether each of the two `curl_easy_escape` calls returns
a string. -/
structure CurlCall where
  easy_init : Bool
  escapeName : Bool
  escapeValue : Bool
deriving DecidableEq, Repr

/-! ## The header map -/

/-- Modelled from the spec: `HTTPHeaderMap` (declared in `httprequest.h`):
"ordered-insertion, case-sensitive key→value mapping with lookup/replace/remove",
"no duplicate keys permitted". `entries` is the iteration order. -/
structure HTTPHeaderMap where
  entries : List (Bytes × Bytes)
  nodup : (entries.map Prod.fst).Nodup
deriving DecidableEq

namespace HTTPHeaderMap

/-- The map of a freshly constructed request. -/
def empty : HTTPHeaderMap := ⟨[], List.nodup_nil⟩

/-- Modelled from the spec: ordered iteration, in insertion order. -/
def iter (m : HTTPHeaderMap) : List (Bytes × Bytes) := m.entries

/-- Modelled from the spec: `Find(name) -> optional entry`, case-sensitive. -/
def find (m : HTTPHeaderMap) (key : Bytes) : Option (Bytes × Bytes) :=
  m.entries.find? (fun e => e.1 == key)

/-- Modelled from the spec: the entries other than the one with key `key`
(what `Remove` leaves). -/
def dropKey (key : Bytes) (l : List (Bytes × Bytes)) : List (Bytes × Bytes) :=
  l.filter (fun e => e.1 != key)

/-- Modelled from the spec: `Remove(entry)`; `r` is the result of a `find`.
Keys being unique, dropping the entry's key drops exactly that entry. -/
def remove (m : HTTPHeaderMap) (r : Option (Bytes × Bytes)) : HTTPHeaderMap :=
  match r with
  | none => m
  | some e => ⟨dropKey e.1 m.entries,
      m.nodup.sublist ((List.filter_sublist m.entries).map Prod.fst)⟩

/-- Modelled from the spec: the value under `key` overwritten "in place without
changing its iteration position". -/
def setValue (key value : Bytes) (l : List (Bytes × Bytes)) : List (Bytes × Bytes) :=
  l.map (fun e => if e.1 == key then (e.1, value) else e)

/-- Modelled from the spec: `Replace(name, value)`, "insert or overwrite";
an existing key keeps its iteration position, a new key goes last. -/
def replace (m : HTTPHeaderMap) (key value : Bytes) : HTTPHeaderMap :=
  if h : (m.entries.any (fun e => e.1 == key)) = true then
    ⟨setValue key value m.entries, by
      have hk : (setValue key value m.entries).map Prod.fst = m.entries.map Prod.fst := by
        unfold setValue
        rw [List.map_map]
        apply List.map_congr_left
        intro e _
        by_cases he : e.1 = key <;> simp [he]
      rw [hk]; exact m.nodup⟩
  else
    ⟨m.entries ++ [(key, value)], by
      rw [List.map_append, List.nodup_append]
      refine ⟨m.nodup, by simp, ?_⟩
      intro a ha hb
      simp only [List.map_cons, List.map_nil, List.mem_singleton] at hb
      subst hb
      apply h
      obtain ⟨e, he, rfl⟩ := List.mem_map.mp ha
      exact List.any_eq_true.mpr ⟨e, he, by simp⟩⟩

/-- The value stored under `key` if the map has that key, `dflt` otherwise. -/
def valueOr (m : HTTPHeaderMap) (key dflt : Bytes) : Bytes :=
  match m.find key with
  | some e => e.2
  | none => dflt

/-- The map without the entries whose key is `k1` or `k2`, the others in place. -/
def without (m : HTTPHeaderMap) (k1 k2 : Bytes) : HTTPHeaderMap :=
  ⟨m.entries.filter (fun e => e.1 != k1 && e.1 != k2),
    m.nodup.sublist ((List.filter_sublist m.entries).map Prod.fst)⟩

end HTTPHeaderMap

/-! ## The request builder -/

/-- The members of `HTTPRequest`. -/
structure HTTPRequest where
  url : Bytes
  query : Bytes
  formData : Bytes
  headers : HTTPHeaderMap
  useBasicAuth : Bool
  username : Bytes
  password : Bytes
  connectTimeout : Int
  maxRedirects : Int
  maxRecvSpeed : Int
  maxSendSpeed : Int
  timeout : Int
deriving DecidableEq

/-- `HTTPRequest::BuildURL`. -/
def BuildURL (r : HTTPRequest) : Bytes :=
  let url := r.url
  let url := url ++ r.query
  url

/-- `HTTPRequest::AppendQueryParam`. -/
def AppendQueryParam (c : CurlCall) (r : HTTPRequest) (name value : Bytes) : HTTPRequest :=
  if !c.easy_init then r
  else
    match curl_easy_escape c.escapeName name, curl_easy_escape c.escapeValue value with
    | some escapedName, some escapedValue =>
      let query := r.query ++ (if r.query.length == 0 then ascii "?" else ascii "&")
      let query := query ++ escapedName
      let query := query ++ ascii "="
      let query := query ++ escapedValue
      { r with query := query }
    | _, _ => r

/-- `HTTPRequest::AppendFormParam`. -/
def AppendFormParam (c : CurlCall) (r : HTTPRequest) (name value : Bytes) : HTTPRequest :=
  if !c.easy_init then r
  else
    match curl_easy_escape c.escapeName name, curl_easy_escape c.escapeValue value with
    | some escapedName, some escapedValue =>
      let formData := r.formData ++ (if r.formData.length == 0 then ascii "" else ascii "&")
      let formData := formData ++ escapedName
      let formData := formData ++ ascii "="
      let formData := formData ++ escapedValue
      { r with formData := formData }
    | _, _ => r

/-- The text `"<key>: <value>"` the loop of `BuildHeaders` formats. -/
def headerText (e : Bytes × Bytes) : Bytes := e.1 ++ ascii ": " ++ e.2

/-- `HTTPRequest::BuildHeaders`: the request afterwards (the member map is
edited) and the list returned. -/
def BuildHeaders (r : HTTPRequest) (acceptTypes contentType : Bytes) :
    HTTPRequest × List Bytes :=
  let headers : List Bytes := []
  let result := r.headers.find (ascii "Accept")
  let result_is_found := result.isSome
  let header := snprintf 8192
    (ascii "Accept: " ++ (match result with | some e => e.2 | none => acceptTypes))
  let headers := curl_slist_append headers header
  let r := if result_is_found then { r with headers := r.headers.remove result } else r
  let result := r.headers.find (ascii "Content-Type")
  let result_is_found := result.isSome
  let header := snprintf 8192
    (ascii "Content-Type: " ++ (match result with | some e => e.2 | none => contentType))
  let headers := curl_slist_append headers header
  let r := if result_is_found then { r with headers := r.headers.remove result } else r
  let headers := r.headers.iter.foldl
    (fun hs e => curl_slist_append hs (snprintf 8192 (headerText e))) headers
  (r, headers)

/-- `HTTPRequest::SetHeader`. -/
def SetHeader (r : HTTPRequest) (name value : Bytes) : HTTPRequest :=
  { r with headers := r.headers.replace name value }

/-- `HTTPRequest::SetBasicAuth`. -/
def SetBasicAuth (r : HTTPRequest) (username password : Bytes) : HTTPRequest :=
  let r := { r with useBasicAuth := true }
  let r := { r with username := username }
  let r := { r with password := password }
  r

/-- `HTTPRequest::UseBasicAuth`. -/
def UseBasicAuth (r : HTTPRequest) : Bool := r.useBasicAuth

/-- `HTTPRequest::GetUsername`. -/
def GetUsername (r : HTTPRequest) : Bytes := r.username

/-- `HTTPRequest::GetPassword`. -/
def GetPassword (r : HTTPRequest) : Bytes := r.password

/-- `HTTPRequest::GetConnectTimeout`. -/
def GetConnectTimeout (r : HTTPRequest) : Int := r.connectTimeout

/-- `HTTPRequest::SetConnectTimeout`. -/
def SetConnectTimeout (r : HTTPRequest) (connectTimeout : Int) : HTTPRequest :=
  { r with connectTimeout := connectTimeout }

/-- `HTTPRequest::GetMaxRedirects`. -/
def GetMaxRedirects (r : HTTPRequest) : Int := r.maxRedirects

/-- `HTTPRequest::SetMaxRedirects`. -/
def SetMaxRedirects (r : HTTPRequest) (maxRedirects : Int) : HTTPRequest :=
  { r with maxRedirects := maxRedirects }

/-- `HTTPRequest::GetMaxRecvSpeed`. -/
def GetMaxRecvSpeed (r : HTTPRequest) : Int := r.maxRecvSpeed

/-- `HTTPRequest::SetMaxRecvSpeed`. -/
def SetMaxRecvSpeed (r : HTTPRequest) (maxSpeed : Int) : HTTPRequest :=
  { r with maxRecvSpeed := maxSpeed }

/-- `HTTPRequest::GetMaxSendSpeed`. -/
def GetMaxSendSpeed (r : HTTPRequest) : Int := r.maxSendSpeed

/-- `HTTPRequest::SetMaxSendSpeed`. -/
def SetMaxSendSpeed (r : HTTPRequest) (maxSpeed : Int) : HTTPRequest :=
  { r with maxSendSpeed := maxSpeed }

/-- `HTTPRequest::GetTimeout`. -/
def GetTimeout (r : HTTPRequest) : Int := r.timeout

/-- `HTTPRequest::SetTimeout`. -/
def SetTimeout (r : HTTPRequest) (timeout : Int) : HTTPRequest :=
  { r with timeout := timeout }

/-- The default member initialisers of `httprequest.h`, which the constructor
leaves in place; the header is not among the sources, so the five numbers are
parameters. -/
structure Defaults where
  connectTimeout : Int
  maxRedirects : Int
  maxRecvSpeed : Int
  maxSendSpeed : Int
  timeout : Int
deriving DecidableEq

/-- `HTTPRequest::HTTPRequest(url)`: only `url` is set by the constructor; the
strings and the map start empty and, by the spec, `useBasicAuth` starts false. -/
def newHTTPRequest (d : Defaults) (url : Bytes) : HTTPRequest :=
  { url := url, query := [], formData := [], headers := HTTPHeaderMap.empty,
    useBasicAuth := false, username := [], password := [],
    connectTimeout := d.connectTimeout, maxRedirects := d.maxRedirects,
    maxRecvSpeed := d.maxRecvSpeed, maxSendSpeed := d.maxSendSpeed, timeout := d.timeout }

/-! ## Request contexts and the queue -/

/-- An address (`json_t *`, `IChangeableForward *`); `0` is the null pointer. -/
abbrev Ptr := Nat

/-- Modelled from the spec: `HTTPRequestContext` (declared in `httprequestcontext.h`), which "takes an
independent copy of every value needed for execution": the values
`new HTTPRequestContext(...)` is given, argument by argument. -/
structure HTTPRequestContext where
  method : Bytes
  url : Bytes
  data : Ptr
  headers : List Bytes
  forward : Ptr
  value : Int
  connectTimeout : Int
  maxRedirects : Int
  timeout : Int
  maxSendSpeed : Int
  maxRecvSpeed : Int
  useBasicAuth : Bool
  username : Bytes
  password : Bytes
deriving DecidableEq

/-- Modelled from the spec: `HTTPFileContext` (declared in `httpfilecontext.h`), which "takes an
independent copy of every value needed for execution": the values
`new HTTPFileContext(...)` is given, argument by argument. -/
structure HTTPFileContext where
  isUpload : Bool
  url : Bytes
  path : Bytes
  headers : List Bytes
  forward : Ptr
  value : Int
  connectTimeout : Int
  maxRedirects : Int
  timeout : Int
  maxSendSpeed : Int
  maxRecvSpeed : Int
  useBasicAuth : Bool
  username : Bytes
  password : Bytes
deriving DecidableEq

/-- Modelled from the spec: `HTTPFormContext` (declared in `httpformcontext.h`), which "takes an
independent copy of every value needed for execution": the values
`new HTTPFormContext(...)` is given, argument by argument. -/
structure HTTPFormContext where
  url : Bytes
  formData : Bytes
  headers : List Bytes
  forward : Ptr
  value : Int
  connectTimeout : Int
  maxRedirects : Int
  timeout : Int
  maxSendSpeed : Int
  maxRecvSpeed : Int
  useBasicAuth : Bool
  username : Bytes
  password : Bytes
deriving DecidableEq

/-- A context handed to the queue: one of the three context classes. -/
inductive IHTTPContext where
  | request (c : HTTPRequestContext)
  | file (c : HTTPFileContext)
  | form (c : HTTPFormContext)
deriving DecidableEq

namespace IHTTPContext

/-- The effective URL stored in a context. -/
def url : IHTTPContext → Bytes
  | request c => c.url
  | file c => c.url
  | form c => c.url

/-- The header list stored in a context. -/
def headers : IHTTPContext → List Bytes
  | request c => c.headers
  | file c => c.headers
  | form c => c.headers

/-- The callback reference stored in a context. -/
def forward : IHTTPContext → Ptr
  | request c => c.forward
  | file c => c.forward
  | form c => c.forward

/-- The caller's value stored in a context. -/
def value : IHTTPContext → Int
  | request c => c.value
  | file c => c.value
  | form c => c.value

end IHTTPContext

/-- Modelled from the spec: `g_RipExt.AddRequestToQueue(context)` (defined in
the extension, not in `httprequest.cpp`): "accepts ownership of one
RequestContext"; the queue gains that context, at its end. -/
def AddRequestToQueue (queue : List IHTTPContext) (context : IHTTPContext) :
    List IHTTPContext :=
  queue ++ [context]

/-- The request object together with the extension's queue. -/
structure World where
  request : HTTPRequest
  queue : List IHTTPContext
deriving DecidableEq

/-- `HTTPRequest::Perform`. The constructor arguments are evaluated in an order
the language leaves open; `BuildHeaders` edits only the header map, which no
other argument reads. -/
def Perform (w : World) (method : Bytes) (data : Ptr) (forward : Ptr) (value : Int) : World :=
  let r := w.request
  let url := BuildURL r
  let (r, headers) := BuildHeaders r (ascii "application/json") (ascii "application/json")
  let context : HTTPRequestContext :=
    { method := method, url := url, data := data, headers := headers, forward := forward,
      value := value, connectTimeout := r.connectTimeout, maxRedirects := r.maxRedirects,
      timeout := r.timeout, maxSendSpeed := r.maxSendSpeed, maxRecvSpeed := r.maxRecvSpeed,
      useBasicAuth := r.useBasicAuth, username := r.username, password := r.password }
  { request := r, queue := AddRequestToQueue w.queue (.request context) }

/-- `HTTPRequest::DownloadFile`. -/
def DownloadFile (w : World) (path : Bytes) (forward : Ptr) (value : Int) : World :=
  let r := w.request
  let url := BuildURL r
  let (r, headers) := BuildHeaders r (ascii "*/*") (ascii "application/octet-stream")
  let context : HTTPFileContext :=
    { isUpload := false, url := url, path := path, headers := headers, forward := forward,
      value := value, connectTimeout := r.connectTimeout, maxRedirects := r.maxRedirects,
      timeout := r.timeout, maxSendSpeed := r.maxSendSpeed, maxRecvSpeed := r.maxRecvSpeed,
      useBasicAuth := r.useBasicAuth, username := r.username, password := r.password }
  { request := r, queue := AddRequestToQueue w.queue (.file context) }

/-- `HTTPRequest::UploadFile`. -/
def UploadFile (w : World) (path : Bytes) (forward : Ptr) (value : Int) : World :=
  let r := w.request
  let url := BuildURL r
  let (r, headers) := BuildHeaders r (ascii "*/*") (ascii "application/octet-stream")
  let context : HTTPFileContext :=
    { isUpload := true, url := url, path := path, headers := headers, forward := forward,
      value := value, connectTimeout := r.connectTimeout, maxRedirects := r.maxRedirects,
      timeout := r.timeout, maxSendSpeed := r.maxSendSpeed, maxRecvSpeed := r.maxRecvSpeed,
      useBasicAuth := r.useBasicAuth, username := r.username, password := r.password }
  { request := r, queue := AddRequestToQueue w.queue (.file context) }

/-- `HTTPRequest::PostForm`. -/
def PostForm (w : World) (forward : Ptr) (value : Int) : World :=
  let r := w.request
  let url := BuildURL r
  let formData := r.formData
  let (r, headers) := BuildHeaders r (ascii "application/json")
    (ascii "application/x-www-form-urlencoded")
  let context : HTTPFormContext :=
    { url := url, formData := formData, headers := headers, forward := forward,
      value := value, connectTimeout := r.connectTimeout, maxRedirects := r.maxRedirects,
      timeout := r.timeout, maxSendSpeed := r.maxSendSpeed, maxRecvSpeed := r.maxRecvSpeed,
      useBasicAuth := r.useBasicAuth, username := r.username, password := r.password }
  { request := r, queue := AddRequestToQueue w.queue (.form context) }

/-- One call of a state-changing member function of `HTTPRequest`, with its
arguments (and, for the two that call libcurl, what libcurl does). -/
inductive Op where
  | appendQueryParam (c : CurlCall) (name value : Bytes)
  | appendFormParam (c : CurlCall) (name value : Bytes)
  | setHeader (name value : Bytes)
  | setBasicAuth (username password : Bytes)
  | setConnectTimeout (n : Int)
  | setMaxRedirects (n : Int)
  | setMaxRecvSpeed (n : Int)
  | setMaxSendSpeed (n : Int)
  | setTimeout (n : Int)
  | perform (method : Bytes) (data : Ptr) (forward : Ptr) (value : Int)
  | downloadFile (path : Bytes) (forward : Ptr) (value : Int)
  | uploadFile (path : Bytes) (forward : Ptr) (value : Int)
  | postForm (forward : Ptr) (value : Int)
deriving DecidableEq

/-- The effect of one call. -/
def step (w : World) : Op → World
  | .appendQueryParam c name value => { w with request := AppendQueryParam c w.request name value }
  | .appendFormParam c name value => { w with request := AppendFormParam c w.request name value }
  | .setHeader name value => { w with request := SetHeader w.request name value }
  | .setBasicAuth u p => { w with request := SetBasicAuth w.request u p }
  | .setConnectTimeout n => { w with request := SetConnectTimeout w.request n }
  | .setMaxRedirects n => { w with request := SetMaxRedirects w.request n }
  | .setMaxRecvSpeed n => { w with request := SetMaxRecvSpeed w.request n }
  | .setMaxSendSpeed n => { w with request := SetMaxSendSpeed w.request n }
  | .setTimeout n => { w with request := SetTimeout w.request n }
  | .perform method data forward value => Perform w method data forward value
  | .downloadFile path forward value => DownloadFile w path forward value
  | .uploadFile path forward value => UploadFile w path forward value
  | .postForm forward value => PostForm w forward value

/-- The effect of a sequence of calls, first call first. -/
def run (w : World) (ops : List Op) : World := ops.foldl step w

/-! ## The standard query/form parser and the encoded syntax -/

/-- Value of a hexadecimal digit, either case. -/
def hexValue (b : Byte) : Option Nat :=
  if 48 ≤ b.val ∧ b.val ≤ 57 then some (b.val - 48)
  else if 65 ≤ b.val ∧ b.val ≤ 70 then some (b.val - 55)
  else if 97 ≤ b.val ∧ b.val ≤ 102 then some (b.val - 87)
  else none

/-- Percent-decoding: `%XY` with two hexadecimal digits becomes the byte `XY`,
every other byte stands for itself. -/
def percentDecode : Bytes → Bytes
  | [] => []
  | b :: rest =>
    let tail := percentDecode rest
    if b = 37 then
      match rest with
      | h :: l :: rest2 =>
        match hexValue h, hexValue l with
        | some x, some y => Fin.ofNat (16 * x + y) :: percentDecode rest2
        | _, _ => b :: tail
      | _ => b :: tail
    else b :: tail

/-- The pieces of `s` between occurrences of `sep`. -/
def splitOn (sep : Byte) : Bytes → List Bytes
  | [] => [[]]
  | b :: rest =>
    if b = sep then [] :: splitOn sep rest
    else
      match splitOn sep rest with
      | [] => [[b]]
      | p :: ps => (b :: p) :: ps

/-- Split at the first occurrence of `sep`: what precedes it and what follows. -/
def splitFirst (sep : Byte) (s : Bytes) : Bytes × Bytes :=
  (s.takeWhile (fun b => b != sep), (s.dropWhile (fun b => b != sep)).drop 1)

/-- The standard parser of a query string (without its `?`) or form body:
split on `&`, split each piece at its first `=`, percent-decode both halves. -/
def parseParams (s : Bytes) : List (Bytes × Bytes) :=
  (splitOn 38 s).map
    (fun p => (percentDecode (splitFirst 61 p).1, percentDecode (splitFirst 61 p).2))

/-- The parser applied to a query string: the leading `?` is dropped first. -/
def parseQuery (query : Bytes) : List (Bytes × Bytes) := parseParams (query.drop 1)

/-- Whether `b` is a hexadecimal digit. -/
def isHex (b : Byte) : Bool := (hexValue b).isSome

/-- Whether `s` consists only of unreserved characters and well-formed `%XX`
escapes. -/
def isEncoded : Bytes → Bool
  | [] => true
  | b :: rest =>
    if Curl_isunreserved b then isEncoded rest
    else if b = 37 then
      match rest with
      | h :: l :: rest2 => isHex h && isHex l && isEncoded rest2
      | _ => false
    else false

/-- One `name=value` piece. -/
def piece (p : Bytes × Bytes) : Bytes := p.1 ++ ascii "=" ++ p.2

/-- Pieces joined by `&`. -/
def joinPieces : List (Bytes × Bytes) → Bytes
  | [] => []
  | [p] => piece p
  | p :: ps => piece p ++ ascii "&" ++ joinPieces ps

/-- Valid form syntax: empty, or one or more `name=value` pieces joined by `&`
whose names and values are encoded. -/
def ValidForm (s : Bytes) : Prop :=
  s = [] ∨ ∃ ps : List (Bytes × Bytes), ps ≠ [] ∧
    (∀ p ∈ ps, isEncoded p.1 = true ∧ isEncoded p.2 = true) ∧ s = joinPieces ps

/-- Valid query syntax: empty, or `?` followed by one or more `name=value`
pieces joined by `&` whose names and values are encoded. -/
def ValidQuery (s : Bytes) : Prop :=
  s = [] ∨ ∃ ps : List (Bytes × Bytes), ps ≠ [] ∧
    (∀ p ∈ ps, isEncoded p.1 = true ∧ isEncoded p.2 = true) ∧ s = ascii "?" ++ joinPieces ps

/-- `AppendQueryParam` called once per element of `calls`, in order; an element
gives what libcurl does during the call, then the name and the value. -/
def appendQueryParams (r : HTTPRequest) (calls : List (CurlCall × Bytes × Bytes)) :
    HTTPRequest :=
  calls.foldl (fun r x => AppendQueryParam x.1 r x.2.1 x.2.2) r

/-- `AppendFormParam` called once per element of `calls`, in order. -/
def appendFormParams (r : HTTPRequest) (calls : List (CurlCall × Bytes × Bytes)) :
    HTTPRequest :=
  calls.foldl (fun r x => AppendFormParam x.1 r x.2.1 x.2.2) r

/-! ## Settings, credentials and kinds of calls -/

/-- The five scalar settings of a request. -/
inductive Setting where
  | connectTimeout
  | maxRedirects
  | timeout
  | maxSendSpeed
  | maxRecvSpeed
deriving DecidableEq

namespace Setting

/-- The getter of the source for a setting. -/
def get : Setting → HTTPRequest → Int
  | connectTimeout, r => GetConnectTimeout r
  | maxRedirects, r => GetMaxRedirects r
  | timeout, r => GetTimeout r
  | maxSendSpeed, r => GetMaxSendSpeed r
  | maxRecvSpeed, r => GetMaxRecvSpeed r

/-- The setter of the source for a setting. -/
def set : Setting → HTTPRequest → Int → HTTPRequest
  | connectTimeout, r, n => SetConnectTimeout r n
  | maxRedirects, r, n => SetMaxRedirects r n
  | timeout, r, n => SetTimeout r n
  | maxSendSpeed, r, n => SetMaxSendSpeed r n
  | maxRecvSpeed, r, n => SetMaxRecvSpeed r n

/-- The call of the setter of a setting. -/
def op : Setting → Int → Op
  | connectTimeout, n => .setConnectTimeout n
  | maxRedirects, n => .setMaxRedirects n
  | timeout, n => .setTimeout n
  | maxSendSpeed, n => .setMaxSendSpeed n
  | maxRecvSpeed, n => .setMaxRecvSpeed n

end Setting

namespace IHTTPContext

/-- The value of a setting stored in a context. -/
def setting : Setting → IHTTPContext → Int
  | .connectTimeout, request c => c.connectTimeout
  | .connectTimeout, file c => c.connectTimeout
  | .connectTimeout, form c => c.connectTimeout
  | .maxRedirects, request c => c.maxRedirects
  | .maxRedirects, file c => c.maxRedirects
  | .maxRedirects, form c => c.maxRedirects
  | .timeout, request c => c.timeout
  | .timeout, file c => c.timeout
  | .timeout, form c => c.timeout
  | .maxSendSpeed, request c => c.maxSendSpeed
  | .maxSendSpeed, file c => c.maxSendSpeed
  | .maxSendSpeed, form c => c.maxSendSpeed
  | .maxRecvSpeed, request c => c.maxRecvSpeed
  | .maxRecvSpeed, file c => c.maxRecvSpeed
  | .maxRecvSpeed, form c => c.maxRecvSpeed

/-- The `useBasicAuth` flag stored in a context. -/
def useBasicAuth : IHTTPContext → Bool
  | request c => c.useBasicAuth
  | file c => c.useBasicAuth
  | form c => c.useBasicAuth

/-- The user name stored in a context. -/
def username : IHTTPContext → Bytes
  | request c => c.username
  | file c => c.username
  | form c => c.username

/-- The password stored in a context. -/
def password : IHTTPContext → Bytes
  | request c => c.password
  | file c => c.password
  | form c => c.password

end IHTTPContext

namespace Op

/-- Whether the call is one of the four perform operations. -/
def isPerform : Op → Bool
  | perform _ _ _ _ => true
  | downloadFile _ _ _ => true
  | uploadFile _ _ _ => true
  | postForm _ _ => true
  | _ => false

/-- Whether the call is `SetBasicAuth`. -/
def isSetBasicAuth : Op → Bool
  | setBasicAuth _ _ => true
  | _ => false

/-- The setting a call assigns, if it is one of the five setters. -/
def sets : Op → Option Setting
  | setConnectTimeout _ => some .connectTimeout
  | setMaxRedirects _ => some .maxRedirects
  | setTimeout _ => some .timeout
  | setMaxSendSpeed _ => some .maxSendSpeed
  | setMaxRecvSpeed _ => some .maxRecvSpeed
  | _ => none

end Op

/-- ASCII lower case of a byte. -/
def toLower (b : Byte) : Byte := if 65 ≤ b.val ∧ b.val ≤ 90 then Fin.ofNat (b.val + 32) else b

/-- Whether two names differ at most in letter case. -/
def sameUpToCase (a b : Bytes) : Bool := a.map toLower == b.map toLower

/-! ## Sample values -/

/-- Some default member values. -/
def sampleDefaults : Defaults :=
  { connectTimeout := 10, maxRedirects := 5, maxRecvSpeed := 0, maxSendSpeed := 0, timeout := 30 }

/-- A fresh request for `https://api.example.com/items`. -/
def sampleFresh : HTTPRequest := newHTTPRequest sampleDefaults (ascii "https://api.example.com/items")

/-- A request on which the caller set `X-Token`, then `Accept`, then `X-Trace`. -/
def sampleRequest : HTTPRequest :=
  SetHeader (SetHeader (SetHeader sampleFresh (ascii "X-Token") (ascii "abc"))
    (ascii "Accept") (ascii "text/html")) (ascii "X-Trace") (ascii "1")

/-- The libcurl behaviour in which every call succeeds. -/
def curlOk : CurlCall := { easy_init := true, escapeName := true, escapeValue := true }

/-- The libcurl behaviour in which `curl_easy_init` returns NULL. -/
def curlNoHandle : CurlCall := { easy_init := false, escapeName := true, escapeValue := true }

/-- A fresh request together with an empty queue. -/
def sampleWorld : World := { request := sampleFresh, queue := [] }

/-! ## Lemmas on the header map -/

theorem foldl_append_lines (f : Bytes × Bytes → Bytes) (l : List (Bytes × Bytes))
    (init : List Bytes) :
    l.foldl (fun hs e => curl_slist_append hs (f e)) init = init ++ l.map f := by
  induction l generalizing init with
  | nil => simp
  | cons e l ih => rw [List.foldl_cons, ih]; simp [curl_slist_append]

theorem find_key {m : HTTPHeaderMap} {key : Bytes} {e : Bytes × Bytes}
    (h : m.find key = some e) : e.1 = key := by
  have := List.find?_some h
  simpa using this

theorem dropKey_of_find_none (key : Bytes) (l : List (Bytes × Bytes))
    (h : l.find? (fun e => e.1 == key) = none) : HTTPHeaderMap.dropKey key l = l := by
  unfold HTTPHeaderMap.dropKey
  rw [List.filter_eq_self]
  intro e he
  have := List.find?_eq_none.mp h e he
  simpa using this

theorem find_dropKey_ne (k k2 : Bytes) (hne : k ≠ k2) (l : List (Bytes × Bytes)) :
    (HTTPHeaderMap.dropKey k2 l).find? (fun e => e.1 == k) = l.find? (fun e => e.1 == k) := by
  induction l with
  | nil => rfl
  | cons e l ih =>
    unfold HTTPHeaderMap.dropKey at ih ⊢
    by_cases h2 : e.1 = k2
    · have hk : ¬ e.1 = k := fun h => hne (h.symm.trans h2)
      simp [List.filter_cons, List.find?_cons, h2, hk, ih, h2 ▸ hk]
    · by_cases hk : e.1 = k
      · subst hk
        simp [List.filter_cons, List.find?_cons, h2]
      · simp [List.filter_cons, List.find?_cons, h2, hk, ih]

theorem dropKey_dropKey (k k2 : Bytes) (l : List (Bytes × Bytes)) :
    HTTPHeaderMap.dropKey k2 (HTTPHeaderMap.dropKey k l)
      = l.filter (fun e => e.1 != k && e.1 != k2) := by
  unfold HTTPHeaderMap.dropKey
  rw [List.filter_filter]
  congr 1
  funext e
  exact Bool.and_comm _ _

theorem accept_ne_contentType : ascii "Content-Type" ≠ ascii "Accept" := by decide

/-- Removing the found `Accept` entry does not change what `find` returns for
`Content-Type`. -/
theorem find_contentType_after (m : HTTPHeaderMap) :
    ((if (m.find (ascii "Accept")).isSome then m.remove (m.find (ascii "Accept")) else m).find
      (ascii "Content-Type")) = m.find (ascii "Content-Type") := by
  cases hA : m.find (ascii "Accept") with
  | none => rfl
  | some e =>
    have hk := find_key hA
    simp only [Option.isSome_some, if_true, HTTPHeaderMap.remove, HTTPHeaderMap.find, hk]
    exact find_dropKey_ne _ _ accept_ne_contentType _

/-- The entries left in the member map by the two removals of `BuildHeaders`. -/
theorem entries_after_removals (m : HTTPHeaderMap) :
    let m1 := if (m.find (ascii "Accept")).isSome then m.remove (m.find (ascii "Accept")) else m
    let m2 := if (m1.find (ascii "Content-Type")).isSome
      then m1.remove (m1.find (ascii "Content-Type")) else m1
    m2.entries
      = m.entries.filter (fun e => e.1 != ascii "Accept" && e.1 != ascii "Content-Type") := by
  intro m1 m2
  have h1 : m1.entries = HTTPHeaderMap.dropKey (ascii "Accept") m.entries := by
    show (if (m.find (ascii "Accept")).isSome then m.remove (m.find (ascii "Accept"))
      else m).entries = _
    cases hA : m.find (ascii "Accept") with
    | none => exact (dropKey_of_find_none _ _ hA).symm
    | some e => simp [HTTPHeaderMap.remove, find_key hA]
  have h2 : m2.entries = HTTPHeaderMap.dropKey (ascii "Content-Type") m1.entries := by
    show (if (m1.find (ascii "Content-Type")).isSome
      then m1.remove (m1.find (ascii "Content-Type")) else m1).entries = _
    cases hC : m1.find (ascii "Content-Type") with
    | none => exact (dropKey_of_find_none _ _ hC).symm
    | some e => simp [HTTPHeaderMap.remove, find_key hC]
  rw [h2, h1, dropKey_dropKey]

theorem HTTPHeaderMap.ext_entries {m1 m2 : HTTPHeaderMap} (h : m1.entries = m2.entries) :
    m1 = m2 := by
  cases m1; cases m2; cases h; rfl

/-- What `BuildHeaders` returns and leaves behind, in closed form: the two
special lines, then one line per remaining entry; the member map loses the
two special keys and nothing else changes. -/
theorem BuildHeaders_closed (r : HTTPRequest) (acceptTypes contentType : Bytes) :
    BuildHeaders r acceptTypes contentType =
      ({ r with headers := r.headers.without (ascii "Accept") (ascii "Content-Type") },
       snprintf 8192 (ascii "Accept: " ++ r.headers.valueOr (ascii "Accept") acceptTypes)
        :: snprintf 8192
            (ascii "Content-Type: " ++ r.headers.valueOr (ascii "Content-Type") contentType)
        :: (r.headers.entries.filter
              (fun e => e.1 != ascii "Accept" && e.1 != ascii "Content-Type")).map
            (fun e => snprintf 8192 (headerText e))) := by
  have hf := find_contentType_after r.headers
  have he := entries_after_removals r.headers
  simp only [] at he
  cases hA : r.headers.find (ascii "Accept") with
  | none =>
    simp only [hA, Option.isSome_none, Bool.false_eq_true, if_false] at hf he
    cases hC : r.headers.find (ascii "Content-Type") with
    | none =>
      simp only [hC, Option.isSome_none, Bool.false_eq_true, if_false] at he
      have hm : r.headers.without (ascii "Accept") (ascii "Content-Type") = r.headers :=
        HTTPHeaderMap.ext_entries he.symm
      simp only [BuildHeaders, HTTPHeaderMap.valueOr, hA, hC, Option.isSome_none,
        Bool.false_eq_true, if_false, HTTPHeaderMap.iter, foldl_append_lines, hm]
      rw [← he]
      rfl
    | some e2 =>
      simp only [hC, Option.isSome_some, if_true] at he
      have hm : r.headers.remove (some e2)
          = r.headers.without (ascii "Accept") (ascii "Content-Type") :=
        HTTPHeaderMap.ext_entries he
      simp only [BuildHeaders, HTTPHeaderMap.valueOr, hA, hC, Option.isSome_none,
        Option.isSome_some, Bool.false_eq_true, if_false, if_true, HTTPHeaderMap.iter,
        foldl_append_lines, he, hm]
      rfl
  | some e1 =>
    simp only [hA, Option.isSome_some, if_true] at hf he
    cases hC : r.headers.find (ascii "Content-Type") with
    | none =>
      simp only [hC] at hf
      simp only [hf, Option.isSome_none, Bool.false_eq_true, if_false] at he
      have hm : r.headers.remove (some e1)
          = r.headers.without (ascii "Accept") (ascii "Content-Type") :=
        HTTPHeaderMap.ext_entries he
      simp only [BuildHeaders, HTTPHeaderMap.valueOr, hA, hC, Option.isSome_some, if_true,
        HTTPHeaderMap.iter, foldl_append_lines]
      simp only [hf, Option.isSome_none, Option.isSome_some, Bool.false_eq_true, if_false,
        if_true]
      simp only [hm]
      rfl
    | some e2 =>
      simp only [hC] at hf
      simp only [hf, Option.isSome_some, if_true] at he
      have hm : (r.headers.remove (some e1)).remove (some e2)
          = r.headers.without (ascii "Accept") (ascii "Content-Type") :=
        HTTPHeaderMap.ext_entries he
      simp only [BuildHeaders, HTTPHeaderMap.valueOr, hA, hC, Option.isSome_some, if_true,
        HTTPHeaderMap.iter, foldl_append_lines]
      simp only [hf, Option.isSome_none, Option.isSome_some, Bool.false_eq_true, if_false,
        if_true]
      simp only [hm]
      rfl

theorem snprintf_after (p v : Bytes) (n : Nat) (h : p.length ≤ n - 1) :
    snprintf n (p ++ v) = p ++ v.take (n - 1 - p.length) := by
  unfold snprintf
  rw [List.take_append_eq_append_take, List.take_of_length_le h]

theorem snprintf_fits (t : Bytes) (n : Nat) (h : t.length < n) : snprintf n t = t := by
  unfold snprintf
  exact List.take_of_length_le (by omega)

theorem find_without_left (m : HTTPHeaderMap) (k1 k2 : Bytes) :
    (m.without k1 k2).find k1 = none := by
  unfold HTTPHeaderMap.find HTTPHeaderMap.without
  rw [List.find?_eq_none]
  intro e he
  have := (List.mem_filter.mp he).2
  simp only [Bool.and_eq_true, bne_iff_ne, ne_eq] at this
  simpa using this.1

theorem find_without_right (m : HTTPHeaderMap) (k1 k2 : Bytes) :
    (m.without k1 k2).find k2 = none := by
  unfold HTTPHeaderMap.find HTTPHeaderMap.without
  rw [List.find?_eq_none]
  intro e he
  have := (List.mem_filter.mp he).2
  simp only [Bool.and_eq_true, bne_iff_ne, ne_eq] at this
  simpa using this.2

theorem without_without (m : HTTPHeaderMap) (k1 k2 : Bytes) :
    (m.without k1 k2).without k1 k2 = m.without k1 k2 := by
  apply HTTPHeaderMap.ext_entries
  simp [HTTPHeaderMap.without, List.filter_filter]

/-! ## Closed forms of the operations -/

theorem Perform_closed (w : World) (method : Bytes) (data forward : Ptr) (value : Int) :
    Perform w method data forward value =
      { request := { w.request with
          headers := w.request.headers.without (ascii "Accept") (ascii "Content-Type") },
        queue := w.queue ++ [.request
          { method := method, url := w.request.url ++ w.request.query, data := data,
            headers := (BuildHeaders w.request (ascii "application/json")
              (ascii "application/json")).2,
            forward := forward, value := value,
            connectTimeout := w.request.connectTimeout, maxRedirects := w.request.maxRedirects,
            timeout := w.request.timeout, maxSendSpeed := w.request.maxSendSpeed,
            maxRecvSpeed := w.request.maxRecvSpeed, useBasicAuth := w.request.useBasicAuth,
            username := w.request.username, password := w.request.password }] } := by
  simp only [Perform, BuildHeaders_closed, AddRequestToQueue, BuildURL]

theorem DownloadFile_closed (w : World) (path : Bytes) (forward : Ptr) (value : Int) :
    DownloadFile w path forward value =
      { request := { w.request with
          headers := w.request.headers.without (ascii "Accept") (ascii "Content-Type") },
        queue := w.queue ++ [.file
          { isUpload := false, url := w.request.url ++ w.request.query, path := path,
            headers := (BuildHeaders w.request (ascii "*/*")
              (ascii "application/octet-stream")).2,
            forward := forward, value := value,
            connectTimeout := w.request.connectTimeout, maxRedirects := w.request.maxRedirects,
            timeout := w.request.timeout, maxSendSpeed := w.request.maxSendSpeed,
            maxRecvSpeed := w.request.maxRecvSpeed, useBasicAuth := w.request.useBasicAuth,
            username := w.request.username, password := w.request.password }] } := by
  simp only [DownloadFile, BuildHeaders_closed, AddRequestToQueue, BuildURL]

theorem UploadFile_closed (w : World) (path : Bytes) (forward : Ptr) (value : Int) :
    UploadFile w path forward value =
      { request := { w.request with
          headers := w.request.headers.without (ascii "Accept") (ascii "Content-Type") },
        queue := w.queue ++ [.file
          { isUpload := true, url := w.request.url ++ w.request.query, path := path,
            headers := (BuildHeaders w.request (ascii "*/*")
              (ascii "application/octet-stream")).2,
            forward := forward, value := value,
            connectTimeout := w.request.connectTimeout, maxRedirects := w.request.maxRedirects,
            timeout := w.request.timeout, maxSendSpeed := w.request.maxSendSpeed,
            maxRecvSpeed := w.request.maxRecvSpeed, useBasicAuth := w.request.useBasicAuth,
            username := w.request.username, password := w.request.password }] } := by
  simp only [UploadFile, BuildHeaders_closed, AddRequestToQueue, BuildURL]

theorem PostForm_closed (w : World) (forward : Ptr) (value : Int) :
    PostForm w forward value =
      { request := { w.request with
          headers := w.request.headers.without (ascii "Accept") (ascii "Content-Type") },
        queue := w.queue ++ [.form
          { url := w.request.url ++ w.request.query, formData := w.request.formData,
            headers := (BuildHeaders w.request (ascii "application/json")
              (ascii "application/x-www-form-urlencoded")).2,
            forward := forward, value := value,
            connectTimeout := w.request.connectTimeout, maxRedirects := w.request.maxRedirects,
            timeout := w.request.timeout, maxSendSpeed := w.request.maxSendSpeed,
            maxRecvSpeed := w.request.maxRecvSpeed, useBasicAuth := w.request.useBasicAuth,
            username := w.request.username, password := w.request.password }] } := by
  simp only [PostForm, BuildHeaders_closed, AddRequestToQueue, BuildURL]

theorem AppendQueryParam_frame (c : CurlCall) (r : HTTPRequest) (name value : Bytes) :
    AppendQueryParam c r name value = { r with query := (AppendQueryParam c r name value).query } := by
  unfold AppendQueryParam
  split
  · rfl
  · split <;> rfl

theorem AppendFormParam_frame (c : CurlCall) (r : HTTPRequest) (name value : Bytes) :
    AppendFormParam c r name value
      = { r with formData := (AppendFormParam c r name value).formData } := by
  unfold AppendFormParam
  split
  · rfl
  · split <;> rfl

theorem step_url (w : World) (op : Op) : (step w op).request.url = w.request.url := by
  cases op <;>
    first
    | rfl
    | (simp only [step]; rw [AppendQueryParam_frame])
    | (simp only [step]; rw [AppendFormParam_frame])
    | simp only [step, Perform_closed, DownloadFile_closed, UploadFile_closed, PostForm_closed]

theorem run_url (w : World) (ops : List Op) : (run w ops).request.url = w.request.url := by
  induction ops generalizing w with
  | nil => rfl
  | cons op ops ih =>
    show (run (step w op) ops).request.url = _
    rw [ih, step_url]

/-! ## Lookups do not depend on the insertion order -/

theorem entry_unique {l : List (Bytes × Bytes)} (hn : (l.map Prod.fst).Nodup)
    {e1 e2 : Bytes × Bytes} (h1 : e1 ∈ l) (h2 : e2 ∈ l) (hk : e1.1 = e2.1) : e1 = e2 :=
  List.inj_on_of_nodup_map hn h1 h2 hk

theorem find_perm (m1 m2 : HTTPHeaderMap) (hp : m1.entries.Perm m2.entries) (key : Bytes) :
    m1.find key = m2.find key := by
  unfold HTTPHeaderMap.find
  cases h1 : m1.entries.find? (fun e => e.1 == key) with
  | none =>
    symm
    rw [List.find?_eq_none] at h1 ⊢
    intro e he
    exact h1 e (hp.mem_iff.mpr he)
  | some e1 =>
    have hm1 : e1 ∈ m1.entries := List.mem_of_find?_eq_some h1
    have hk1 : e1.1 = key := by simpa using List.find?_some h1
    cases h2 : m2.entries.find? (fun e => e.1 == key) with
    | none =>
      rw [List.find?_eq_none] at h2
      have := h2 e1 (hp.mem_iff.mp hm1)
      simp [hk1] at this
    | some e2 =>
      have hm2 : e2 ∈ m2.entries := List.mem_of_find?_eq_some h2
      have hk2 : e2.1 = key := by simpa using List.find?_some h2
      rw [entry_unique m2.nodup (hp.mem_iff.mp hm1) hm2 (hk1.trans hk2.symm)]

theorem valueOr_perm (m1 m2 : HTTPHeaderMap) (hp : m1.entries.Perm m2.entries)
    (key dflt : Bytes) : m1.valueOr key dflt = m2.valueOr key dflt := by
  unfold HTTPHeaderMap.valueOr
  rw [find_perm m1 m2 hp key]

/-! ## Header composition -/

/-- C1: for every header map and every default pair, the list returned by
`BuildHeaders` has the `Accept` line first and the `Content-Type` line second
(each carrying the caller's value if the key is in the map and the default
otherwise, cut to the line buffer), followed by exactly one line for each
entry whose key is neither `Accept` nor `Content-Type`, namely the text
`<key>: <value>` of the entry cut to the line buffer, in the map's iteration
(insertion) order; the first two lines are the same for any other insertion
order of the same entries. -/
theorem C1_BuildHeaders_order (r : HTTPRequest) (acceptTypes contentType : Bytes) :
    (BuildHeaders r acceptTypes contentType).2 =
      (ascii "Accept: " ++ (r.headers.valueOr (ascii "Accept") acceptTypes).take 8183)
      :: (ascii "Content-Type: "
            ++ (r.headers.valueOr (ascii "Content-Type") contentType).take 8177)
      :: (r.headers.iter.filter
            (fun e => e.1 != ascii "Accept" && e.1 != ascii "Content-Type")).map
          (fun e => (e.1 ++ ascii ": " ++ e.2).take 8191)
    ∧ ∀ r2 : HTTPRequest, r2.headers.iter.Perm r.headers.iter →
        (BuildHeaders r2 acceptTypes contentType).2.take 2
          = (BuildHeaders r acceptTypes contentType).2.take 2 := by
  constructor
  · rw [BuildHeaders_closed]
    simp only [HTTPHeaderMap.iter]
    rw [snprintf_after _ _ 8192 (by decide), snprintf_after _ _ 8192 (by decide)]
    rfl
  · intro r2 hp
    rw [BuildHeaders_closed, BuildHeaders_closed]
    simp only [List.take_succ_cons, List.take_zero]
    rw [valueOr_perm r2.headers r.headers hp, valueOr_perm r2.headers r.headers hp]

/-- C2: when the two special lines fit in the 8192-byte buffer, the first line
is `Accept: ` followed by the caller's value for `Accept` if the map has that
key and by `acceptTypes` otherwise, the second is `Content-Type: ` followed by
the caller's value if present and by `contentType` otherwise, and every later
line comes from an entry of the map whose key is neither `Accept` nor
`Content-Type`. -/
theorem C2_caller_value_else_default (r : HTTPRequest) (acceptTypes contentType : Bytes)
    (hA : (ascii "Accept: " ++ r.headers.valueOr (ascii "Accept") acceptTypes).length < 8192)
    (hC : (ascii "Content-Type: "
      ++ r.headers.valueOr (ascii "Content-Type") contentType).length < 8192) :
    ∃ rest : List (Bytes × Bytes),
      (BuildHeaders r acceptTypes contentType).2 =
        (ascii "Accept: " ++ r.headers.valueOr (ascii "Accept") acceptTypes)
        :: (ascii "Content-Type: " ++ r.headers.valueOr (ascii "Content-Type") contentType)
        :: rest.map (fun e => snprintf 8192 (headerText e))
      ∧ rest.Sublist r.headers.iter
      ∧ ∀ e ∈ rest, e.1 ≠ ascii "Accept" ∧ e.1 ≠ ascii "Content-Type" := by
  refine ⟨r.headers.entries.filter
    (fun e => e.1 != ascii "Accept" && e.1 != ascii "Content-Type"), ?_, ?_, ?_⟩
  · rw [BuildHeaders_closed, snprintf_fits _ _ hA, snprintf_fits _ _ hC]
  · exact List.filter_sublist _
  · intro e he
    have := (List.mem_filter.mp he).2
    simpa using this

/-- Witness for C2 on `sampleRequest`, whose caller set `Accept: text/html`. -/
theorem C2_caller_value_else_default_witness :
    (ascii "Accept: " ++ sampleRequest.headers.valueOr (ascii "Accept")
        (ascii "application/json")).length < 8192
    ∧ (ascii "Content-Type: " ++ sampleRequest.headers.valueOr (ascii "Content-Type")
        (ascii "application/json")).length < 8192
    ∧ ∃ rest : List (Bytes × Bytes),
      (BuildHeaders sampleRequest (ascii "application/json") (ascii "application/json")).2 =
        (ascii "Accept: " ++ sampleRequest.headers.valueOr (ascii "Accept")
          (ascii "application/json"))
        :: (ascii "Content-Type: " ++ sampleRequest.headers.valueOr (ascii "Content-Type")
          (ascii "application/json"))
        :: rest.map (fun e => snprintf 8192 (headerText e))
      ∧ rest.Sublist sampleRequest.headers.iter
      ∧ ∀ e ∈ rest, e.1 ≠ ascii "Accept" ∧ e.1 ≠ ascii "Content-Type" :=
  ⟨by decide, by decide,
    C2_caller_value_else_default sampleRequest (ascii "application/json")
      (ascii "application/json") (by decide) (by decide)⟩

/-- C3 fails as stated: on `sampleRequest` (caller set `Accept: text/html`) the
first composition emits the caller's `Accept`, the second one, made on the
request as the first left it, emits the default: the two lists differ. -/
theorem C3_counterexample :
    (BuildHeaders sampleRequest (ascii "application/json") (ascii "application/json")).2
        = [ascii "Accept: text/html", ascii "Content-Type: application/json",
            ascii "X-Token: abc", ascii "X-Trace: 1"]
    ∧ (BuildHeaders
        (BuildHeaders sampleRequest (ascii "application/json") (ascii "application/json")).1
        (ascii "application/json") (ascii "application/json")).2
        = [ascii "Accept: application/json", ascii "Content-Type: application/json",
            ascii "X-Token: abc", ascii "X-Trace: 1"]
    ∧ (BuildHeaders
        (BuildHeaders sampleRequest (ascii "application/json") (ascii "application/json")).1
        (ascii "application/json") (ascii "application/json")).2
        ≠ (BuildHeaders sampleRequest (ascii "application/json") (ascii "application/json")).2 := by
  decide

/-- C3, amended: `BuildHeaders` removes a caller-set `Accept`/`Content-Type`
from the request's own map. After one composition the map holds neither key
and keeps every other entry in place; composing again, with no mutation in
between, leaves the request as the first composition left it and returns the
default `Accept` and `Content-Type` lines followed by the same remaining lines
as the first time; the two lists are equal when the map held neither key. -/
theorem C3_second_composition (r : HTTPRequest) (acceptTypes contentType : Bytes) :
    (BuildHeaders r acceptTypes contentType).1.headers.find (ascii "Accept") = none
    ∧ (BuildHeaders r acceptTypes contentType).1.headers.find (ascii "Content-Type") = none
    ∧ (BuildHeaders r acceptTypes contentType).1.headers.iter
        = r.headers.iter.filter (fun e => e.1 != ascii "Accept" && e.1 != ascii "Content-Type")
    ∧ (BuildHeaders (BuildHeaders r acceptTypes contentType).1 acceptTypes contentType).1
        = (BuildHeaders r acceptTypes contentType).1
    ∧ (BuildHeaders (BuildHeaders r acceptTypes contentType).1 acceptTypes contentType).2
        = snprintf 8192 (ascii "Accept: " ++ acceptTypes)
          :: snprintf 8192 (ascii "Content-Type: " ++ contentType)
          :: (BuildHeaders r acceptTypes contentType).2.drop 2
    ∧ (r.headers.find (ascii "Accept") = none → r.headers.find (ascii "Content-Type") = none →
        (BuildHeaders (BuildHeaders r acceptTypes contentType).1 acceptTypes contentType).2
          = (BuildHeaders r acceptTypes contentType).2) := by
  have h1 := find_without_left r.headers (ascii "Accept") (ascii "Content-Type")
  have h2 := find_without_right r.headers (ascii "Accept") (ascii "Content-Type")
  have h3 := without_without r.headers (ascii "Accept") (ascii "Content-Type")
  have h4 := congrArg HTTPHeaderMap.entries h3
  simp only [HTTPHeaderMap.without] at h4
  refine ⟨?_, ?_, ?_, ?_, ?_, ?_⟩
  · rw [BuildHeaders_closed]; exact h1
  · rw [BuildHeaders_closed]; exact h2
  · rw [BuildHeaders_closed]; rfl
  · rw [BuildHeaders_closed, BuildHeaders_closed]
    simp only [h3]
  · rw [BuildHeaders_closed, BuildHeaders_closed]
    simp only [HTTPHeaderMap.valueOr, h1, h2, List.drop_succ_cons, List.drop_zero]
    simp only [HTTPHeaderMap.without]
    rw [h4]
  · intro hA hC
    rw [BuildHeaders_closed, BuildHeaders_closed]
    simp only [HTTPHeaderMap.valueOr, h1, h2, hA, hC]
    simp only [HTTPHeaderMap.without]
    rw [h4]

/-! ## Query and form parameters -/

theorem AppendQueryParam_query_of_success (c : CurlCall) (r : HTTPRequest)
    (name value escapedName escapedValue : Bytes)
    (hi : c.easy_init = true)
    (hn : curl_easy_escape c.escapeName name = some escapedName)
    (hv : curl_easy_escape c.escapeValue value = some escapedValue) :
    (AppendQueryParam c r name value).query =
      r.query ++ (if r.query = [] then ascii "?" else ascii "&")
          ++ escapedName ++ ascii "=" ++ escapedValue := by
  unfold AppendQueryParam
  simp only [hi, hn, hv, Bool.not_true, Bool.false_eq_true, if_false]
  cases hq : r.query <;> rfl

/-- C4: when the handle is created and both name and value encode, the new
query string is the old one followed by `?` if the old one was empty and `&`
otherwise, then the encoded name, `=`, the encoded value; no other member
changes. -/
theorem C4_AppendQueryParam_appends (c : CurlCall) (r : HTTPRequest)
    (name value escapedName escapedValue : Bytes)
    (hi : c.easy_init = true)
    (hn : curl_easy_escape c.escapeName name = some escapedName)
    (hv : curl_easy_escape c.escapeValue value = some escapedValue) :
    AppendQueryParam c r name value =
      { r with query := r.query ++ (if r.query = [] then ascii "?" else ascii "&")
          ++ escapedName ++ ascii "=" ++ escapedValue } := by
  unfold AppendQueryParam
  simp only [hi, hn, hv, Bool.not_true, Bool.false_eq_true, if_false]
  cases hq : r.query <;> rfl

/-- Witness for C4: the second parameter appended to `sampleFresh`. -/
theorem C4_AppendQueryParam_appends_witness :
    curlOk.easy_init = true
    ∧ curl_easy_escape curlOk.escapeName (ascii "a b") = some (ascii "a%20b")
    ∧ curl_easy_escape curlOk.escapeValue (ascii "x&y") = some (ascii "x%26y")
    ∧ AppendQueryParam curlOk (AppendQueryParam curlOk sampleFresh (ascii "q") (ascii "1"))
        (ascii "a b") (ascii "x&y") =
      { AppendQueryParam curlOk sampleFresh (ascii "q") (ascii "1") with
        query := (AppendQueryParam curlOk sampleFresh (ascii "q") (ascii "1")).query
          ++ (if (AppendQueryParam curlOk sampleFresh (ascii "q") (ascii "1")).query = []
              then ascii "?" else ascii "&")
          ++ ascii "a%20b" ++ ascii "=" ++ ascii "x%26y" } :=
  ⟨rfl, by decide, by decide,
    C4_AppendQueryParam_appends curlOk _ (ascii "a b") (ascii "x&y") (ascii "a%20b")
      (ascii "x%26y") rfl (by decide) (by decide)⟩

/-- C5: if the handle cannot be created, or the name or the value fails to
encode, `AppendQueryParam` and `AppendFormParam` leave the request exactly as
it was; hence of two `AppendQueryParam` calls on a request with an empty query
string, one failing (`c`, `name`, `value`) and one succeeding (`c2`, `name2`,
`value2`), in either order, the query string is `?` + encoded name + `=` +
encoded value of the successful one. -/
theorem C5_failed_encoding_is_noop (c : CurlCall) (r : HTTPRequest) (name value : Bytes)
    (h : c.easy_init = false ∨ curl_easy_escape c.escapeName name = none
      ∨ curl_easy_escape c.escapeValue value = none) :
    AppendQueryParam c r name value = r
    ∧ AppendFormParam c r name value = r
    ∧ ∀ (c2 : CurlCall) (name2 value2 escapedName escapedValue : Bytes),
        r.query = [] → c2.easy_init = true →
        curl_easy_escape c2.escapeName name2 = some escapedName →
        curl_easy_escape c2.escapeValue value2 = some escapedValue →
        (AppendQueryParam c2 (AppendQueryParam c r name value) name2 value2).query
            = ascii "?" ++ escapedName ++ ascii "=" ++ escapedValue
        ∧ (AppendQueryParam c (AppendQueryParam c2 r name2 value2) name value).query
            = ascii "?" ++ escapedName ++ ascii "=" ++ escapedValue := by
  have hq : ∀ r : HTTPRequest, AppendQueryParam c r name value = r := by
    intro r
    unfold AppendQueryParam
    rcases h with h | h | h
    · simp [h]
    · split
      · rfl
      · rw [h]
    · split
      · rfl
      · rw [h]; split <;> simp_all
  have hf : AppendFormParam c r name value = r := by
    unfold AppendFormParam
    rcases h with h | h | h
    · simp [h]
    · split
      · rfl
      · rw [h]
    · split
      · rfl
      · rw [h]; split <;> simp_all
  refine ⟨hq r, hf, ?_⟩
  intro c2 name2 value2 en ev hempty hi hn hv
  rw [hq, hq, AppendQueryParam_query_of_success c2 r name2 value2 en ev hi hn hv, hempty]
  exact ⟨rfl, rfl⟩

/-- Witness for C5: `curl_easy_init` returns NULL for the call on `sampleFresh`. -/
theorem C5_failed_encoding_is_noop_witness :
    (curlNoHandle.easy_init = false
      ∨ curl_easy_escape curlNoHandle.escapeName (ascii "k") = none
      ∨ curl_easy_escape curlNoHandle.escapeValue (ascii "v") = none)
    ∧ AppendQueryParam curlNoHandle sampleFresh (ascii "k") (ascii "v") = sampleFresh
    ∧ AppendFormParam curlNoHandle sampleFresh (ascii "k") (ascii "v") = sampleFresh
    ∧ ∀ (c2 : CurlCall) (name2 value2 escapedName escapedValue : Bytes),
        sampleFresh.query = [] → c2.easy_init = true →
        curl_easy_escape c2.escapeName name2 = some escapedName →
        curl_easy_escape c2.escapeValue value2 = some escapedValue →
        (AppendQueryParam c2 (AppendQueryParam curlNoHandle sampleFresh (ascii "k") (ascii "v"))
            name2 value2).query
            = ascii "?" ++ escapedName ++ ascii "=" ++ escapedValue
        ∧ (AppendQueryParam curlNoHandle (AppendQueryParam c2 sampleFresh name2 value2)
            (ascii "k") (ascii "v")).query
            = ascii "?" ++ escapedName ++ ascii "=" ++ escapedValue :=
  ⟨Or.inl rfl,
    C5_failed_encoding_is_noop curlNoHandle sampleFresh (ascii "k") (ascii "v") (Or.inl rfl)⟩

/-! ## The effective URL and the perform operations -/

/-- C9: `BuildURL` (a `const` member, hence a function of the request that
changes nothing) returns the base URL followed by the query string, and no
sequence of state-changing calls changes the base URL. -/
theorem C9_BuildURL (w : World) (ops : List Op) :
    BuildURL w.request = w.request.url ++ w.request.query
    ∧ (run w ops).request.url = w.request.url
    ∧ (∀ op : Op, (step w op).request.url = w.request.url) :=
  ⟨rfl, run_url w ops, step_url w⟩

/-- C10: each of `Perform`, `DownloadFile`, `UploadFile` and `PostForm` adds
exactly one context at the end of the queue, of the matching class (request
context with the given method and body; file context with `isUpload` false for
`DownloadFile`, true for `UploadFile`, and the given path; form context with
the request's `formData`), whose URL is `BuildURL()` and whose callback
reference and value are the caller's. -/
theorem C10_perform_submits_one (w : World) (method path : Bytes) (data forward : Ptr)
    (value : Int) :
    (∃ c : HTTPRequestContext,
        (Perform w method data forward value).queue = w.queue ++ [.request c]
        ∧ c.method = method ∧ c.data = data ∧ c.url = BuildURL w.request
        ∧ c.forward = forward ∧ c.value = value)
    ∧ (∃ c : HTTPFileContext,
        (DownloadFile w path forward value).queue = w.queue ++ [.file c]
        ∧ c.isUpload = false ∧ c.path = path ∧ c.url = BuildURL w.request
        ∧ c.forward = forward ∧ c.value = value)
    ∧ (∃ c : HTTPFileContext,
        (UploadFile w path forward value).queue = w.queue ++ [.file c]
        ∧ c.isUpload = true ∧ c.path = path ∧ c.url = BuildURL w.request
        ∧ c.forward = forward ∧ c.value = value)
    ∧ (∃ c : HTTPFormContext,
        (PostForm w forward value).queue = w.queue ++ [.form c]
        ∧ c.formData = w.request.formData ∧ c.url = BuildURL w.request
        ∧ c.forward = forward ∧ c.value = value) := by
  rw [Perform_closed, DownloadFile_closed, UploadFile_closed, PostForm_closed]
  exact ⟨⟨_, rfl, rfl, rfl, rfl, rfl, rfl⟩, ⟨_, rfl, rfl, rfl, rfl, rfl, rfl⟩,
    ⟨_, rfl, rfl, rfl, rfl, rfl, rfl⟩, ⟨_, rfl, rfl, rfl, rfl, rfl⟩⟩

/-! ## Percent-encoding, byte by byte -/

set_option maxRecDepth 100000 in
theorem unreserved_not_special : ∀ b : Byte, Curl_isunreserved b = true →
    b ≠ 37 ∧ b ≠ 38 ∧ b ≠ 61 ∧ b ≠ 63 ∧ b ≠ 35 ∧ b ≠ 32 := by decide

set_option maxRecDepth 100000 in
theorem isHex_not_special : ∀ b : Byte, isHex b = true →
    b ≠ 38 ∧ b ≠ 61 ∧ b ≠ 63 ∧ b ≠ 35 ∧ b ≠ 32 := by decide

theorem hexValue_hexDigit : ∀ n : Fin 16, hexValue (hexDigit n.val) = some n.val := by decide

theorem isHex_hexDigit : ∀ n : Fin 16, isHex (hexDigit n.val) = true := by decide

theorem percentDecode_cons_other (b : Byte) (rest : Bytes) (h : b ≠ 37) :
    percentDecode (b :: rest) = b :: percentDecode rest := by
  cases rest with
  | nil => simp [percentDecode, h]
  | cons x rest => cases rest <;> simp [percentDecode, h]

theorem percentDecode_escape (h l : Byte) (x y : Nat) (rest : Bytes)
    (hx : hexValue h = some x) (hy : hexValue l = some y) :
    percentDecode (37 :: h :: l :: rest) = Fin.ofNat (16 * x + y) :: percentDecode rest := by
  simp [percentDecode, hx, hy]

theorem isEncoded_cons_unreserved (b : Byte) (rest : Bytes) (h : Curl_isunreserved b = true) :
    isEncoded (b :: rest) = isEncoded rest := by
  cases rest with
  | nil => simp [isEncoded, h]
  | cons x rest => cases rest <;> simp [isEncoded, h]

theorem isEncoded_escape (h l : Byte) (rest : Bytes) :
    isEncoded (37 :: h :: l :: rest) = (isHex h && isHex l && isEncoded rest) := by
  have h37 : Curl_isunreserved 37 = false := by decide
  simp [isEncoded, h37]

theorem percentDecode_escapeByte (b : Byte) (rest : Bytes) :
    percentDecode (escapeByte b ++ rest) = b :: percentDecode rest := by
  unfold escapeByte
  by_cases hu : Curl_isunreserved b = true
  · have hne : b ≠ 37 := (unreserved_not_special b hu).1
    simp only [hu, if_true, List.singleton_append]
    exact percentDecode_cons_other b rest hne
  · have hd : b.val / 16 < 16 := by omega
    have hm : b.val % 16 < 16 := Nat.mod_lt _ (by decide)
    have h1 := hexValue_hexDigit ⟨b.val / 16, hd⟩
    have h2 := hexValue_hexDigit ⟨b.val % 16, hm⟩
    simp only at h1 h2
    simp only [hu, Bool.false_eq_true, if_false, List.cons_append, List.nil_append]
    rw [percentDecode_escape _ _ _ _ _ h1 h2]
    congr 1
    apply Fin.ext
    simp only [Fin.ofNat, Nat.div_add_mod]
    exact Nat.mod_eq_of_lt b.isLt

theorem percentDecode_escapeBytes (s : Bytes) : percentDecode (escapeBytes s) = s := by
  induction s with
  | nil => rfl
  | cons b s ih => rw [escapeBytes, percentDecode_escapeByte, ih]

theorem isEncoded_escapeByte (b : Byte) (rest : Bytes) :
    isEncoded (escapeByte b ++ rest) = isEncoded rest := by
  unfold escapeByte
  by_cases hu : Curl_isunreserved b = true
  · simp only [hu, if_true, List.singleton_append]
    exact isEncoded_cons_unreserved b rest hu
  · have hd : b.val / 16 < 16 := by omega
    have hm : b.val % 16 < 16 := Nat.mod_lt _ (by decide)
    have h1 := isHex_hexDigit ⟨b.val / 16, hd⟩
    have h2 := isHex_hexDigit ⟨b.val % 16, hm⟩
    simp only at h1 h2
    simp only [hu, Bool.false_eq_true, if_false, List.cons_append, List.nil_append]
    rw [isEncoded_escape, h1, h2]
    rfl

theorem isEncoded_escapeBytes (s : Bytes) : isEncoded (escapeBytes s) = true := by
  induction s with
  | nil => rfl
  | cons b s ih => rw [escapeBytes, isEncoded_escapeByte, ih]

theorem isEncoded_cases (b : Byte) (rest : Bytes) (h : isEncoded (b :: rest) = true) :
    (Curl_isunreserved b = true ∧ isEncoded rest = true)
    ∨ ∃ hh l rest2, b = 37 ∧ rest = hh :: l :: rest2 ∧ isHex hh = true ∧ isHex l = true
        ∧ isEncoded rest2 = true := by
  by_cases hu : Curl_isunreserved b = true
  · left
    rw [isEncoded_cons_unreserved b rest hu] at h
    exact ⟨hu, h⟩
  · right
    by_cases h37 : b = 37
    · subst h37
      match rest, h with
      | [], h => simp [isEncoded, hu] at h
      | [_], h => simp [isEncoded, hu] at h
      | hh :: l :: rest2, h =>
        rw [isEncoded_escape] at h
        simp only [Bool.and_eq_true] at h
        exact ⟨hh, l, rest2, rfl, rfl, h.1.1, h.1.2, h.2⟩
    · cases rest with
      | nil => simp [isEncoded, hu, h37] at h
      | cons x rest => cases rest <;> simp [isEncoded, hu, h37] at h

theorem isEncoded_no_reserved (s : Bytes) (h : isEncoded s = true) :
    ∀ x ∈ s, x ≠ 38 ∧ x ≠ 61 ∧ x ≠ 63 ∧ x ≠ 35 ∧ x ≠ 32 := by
  obtain ⟨n, hn⟩ : ∃ n, s.length = n := ⟨_, rfl⟩
  induction n using Nat.strong_induction_on generalizing s with
  | _ n ih =>
    cases s with
    | nil => intro x hx; cases hx
    | cons b rest =>
      intro x hx
      rcases isEncoded_cases b rest h with ⟨hu, hr⟩ | ⟨hh, l, rest2, rfl, rfl, h1, h2, hr⟩
      · rcases List.mem_cons.mp hx with rfl | hx
        · exact (unreserved_not_special x hu).2
        · exact ih rest.length (by simp [← hn]) rest hr rfl x hx
      · rcases List.mem_cons.mp hx with rfl | hx
        · decide
        rcases List.mem_cons.mp hx with rfl | hx
        · exact isHex_not_special x h1
        rcases List.mem_cons.mp hx with rfl | hx
        · exact isHex_not_special x h2
        · exact ih rest2.length (by simp [← hn]; omega) rest2 hr rfl x hx

/-! ## Splitting and joining -/

theorem ascii_amp : ascii "&" = [38] := by decide

theorem ascii_eq : ascii "=" = [61] := by decide

theorem ascii_question : ascii "?" = [63] := by decide

theorem splitOn_no_sep (sep : Byte) (p : Bytes) (h : sep ∉ p) : splitOn sep p = [p] := by
  induction p with
  | nil => rfl
  | cons b p ih =>
    have hb : b ≠ sep := fun e => h (e ▸ List.mem_cons_self _ _)
    have hp : sep ∉ p := fun e => h (List.mem_cons_of_mem _ e)
    simp only [splitOn, hb, if_false, ih hp]

theorem splitOn_append_sep (sep : Byte) (p rest : Bytes) (h : sep ∉ p) :
    splitOn sep (p ++ sep :: rest) = p :: splitOn sep rest := by
  induction p with
  | nil => simp [splitOn]
  | cons b p ih =>
    have hb : b ≠ sep := fun e => h (e ▸ List.mem_cons_self _ _)
    have hp : sep ∉ p := fun e => h (List.mem_cons_of_mem _ e)
    rw [List.cons_append, splitOn, if_neg hb, ih hp]

theorem splitFirst_at_sep (sep : Byte) (a b : Bytes) (h : sep ∉ a) :
    splitFirst sep (a ++ sep :: b) = (a, b) := by
  induction a with
  | nil => simp [splitFirst, List.takeWhile, List.dropWhile]
  | cons x a ih =>
    have hx : x ≠ sep := fun e => h (e ▸ List.mem_cons_self _ _)
    have ha : sep ∉ a := fun e => h (List.mem_cons_of_mem _ e)
    have := ih ha
    simp only [splitFirst, Prod.mk.injEq] at this
    have hx2 : (x != sep) = true := by simpa using hx
    simp only [splitFirst, List.cons_append, List.takeWhile_cons, List.dropWhile_cons, hx2,
      if_true, this.1, this.2]

theorem joinPieces_cons (p : Bytes × Bytes) (ps : List (Bytes × Bytes)) (h : ps ≠ []) :
    joinPieces (p :: ps) = piece p ++ ascii "&" ++ joinPieces ps := by
  cases ps with
  | nil => exact absurd rfl h
  | cons q qs => rfl

theorem joinPieces_append_one (ps : List (Bytes × Bytes)) (p : Bytes × Bytes) (h : ps ≠ []) :
    joinPieces (ps ++ [p]) = joinPieces ps ++ ascii "&" ++ piece p := by
  induction ps with
  | nil => exact absurd rfl h
  | cons q qs ih =>
    cases qs with
    | nil => rfl
    | cons q2 qs2 =>
      rw [List.cons_append, joinPieces_cons q _ (by simp), ih (by simp),
        joinPieces_cons q _ (by simp)]
      simp only [List.append_assoc]

theorem piece_ne_nil (p : Bytes × Bytes) : piece p ≠ [] := by
  unfold piece
  intro h
  have := congrArg List.length h
  simp [ascii] at this

theorem joinPieces_ne_nil (ps : List (Bytes × Bytes)) (h : ps ≠ []) : joinPieces ps ≠ [] := by
  cases ps with
  | nil => exact absurd rfl h
  | cons p ps =>
    cases ps with
    | nil => exact piece_ne_nil p
    | cons q qs =>
      rw [joinPieces_cons p _ (by simp)]
      intro h
      have := congrArg List.length h
      simp [ascii] at this

theorem splitOn_joinPieces (ps : List (Bytes × Bytes)) (h : ps ≠ [])
    (hs : ∀ p ∈ ps, (38 : Byte) ∉ piece p) :
    splitOn 38 (joinPieces ps) = ps.map piece := by
  induction ps with
  | nil => exact absurd rfl h
  | cons p ps ih =>
    cases ps with
    | nil => exact splitOn_no_sep 38 _ (hs p (List.mem_cons_self _ _))
    | cons q qs =>
      rw [joinPieces_cons p _ (by simp)]
      have : piece p ++ ascii "&" ++ joinPieces (q :: qs)
          = piece p ++ (38 : Byte) :: joinPieces (q :: qs) := by
        rw [ascii_amp, List.append_assoc, List.singleton_append]
      rw [this, splitOn_append_sep 38 _ _ (hs p (List.mem_cons_self _ _)),
        ih (by simp) (fun x hx => hs x (List.mem_cons_of_mem _ hx))]
      rfl

theorem not_mem_escapeBytes (s : Bytes) :
    (38 : Byte) ∉ escapeBytes s ∧ (61 : Byte) ∉ escapeBytes s := by
  have h := isEncoded_no_reserved _ (isEncoded_escapeBytes s)
  exact ⟨fun hm => (h 38 hm).1 rfl, fun hm => (h 61 hm).2.1 rfl⟩

theorem piece_escaped_no_amp (n v : Bytes) :
    (38 : Byte) ∉ piece (escapeBytes n, escapeBytes v) := by
  unfold piece
  intro h
  simp only [List.mem_append] at h
  rcases h with (h | h) | h
  · exact (not_mem_escapeBytes n).1 h
  · revert h; decide
  · exact (not_mem_escapeBytes v).1 h

theorem parse_piece_escaped (n v : Bytes) :
    (percentDecode (splitFirst 61 (piece (escapeBytes n, escapeBytes v))).1,
     percentDecode (splitFirst 61 (piece (escapeBytes n, escapeBytes v))).2) = (n, v) := by
  have : piece (escapeBytes n, escapeBytes v) = escapeBytes n ++ (61 : Byte) :: escapeBytes v := by
    rw [piece, ascii_eq, List.append_assoc, List.singleton_append]
  rw [this, splitFirst_at_sep 61 _ _ (not_mem_escapeBytes n).2]
  simp only [percentDecode_escapeBytes]

theorem parseParams_joinPieces (ps : List (Bytes × Bytes)) (hps : ps ≠ []) :
    parseParams (joinPieces (ps.map (fun p => (escapeBytes p.1, escapeBytes p.2)))) = ps := by
  have hne : ps.map (fun p => (escapeBytes p.1, escapeBytes p.2)) ≠ [] := by
    intro h
    exact hps (List.map_eq_nil_iff.mp h)
  unfold parseParams
  rw [splitOn_joinPieces _ hne]
  · rw [List.map_map, List.map_map]
    conv_rhs => rw [← List.map_id ps]
    apply List.map_congr_left
    intro p _
    exact parse_piece_escaped p.1 p.2
  · intro p hp
    obtain ⟨y, _, rfl⟩ := List.mem_map.mp hp
    exact piece_escaped_no_amp y.1 y.2

/-! ## The syntax invariant -/

theorem AppendFormParam_formData_of_success (c : CurlCall) (r : HTTPRequest)
    (name value escapedName escapedValue : Bytes)
    (hi : c.easy_init = true)
    (hn : curl_easy_escape c.escapeName name = some escapedName)
    (hv : curl_easy_escape c.escapeValue value = some escapedValue) :
    (AppendFormParam c r name value).formData =
      r.formData ++ (if r.formData = [] then [] else ascii "&")
          ++ escapedName ++ ascii "=" ++ escapedValue := by
  unfold AppendFormParam
  simp only [hi, hn, hv, Bool.not_true, Bool.false_eq_true, if_false]
  cases hq : r.formData <;> rfl

/-- A call either changes nothing or appends the escaped pair. -/
theorem AppendQueryParam_cases (c : CurlCall) (r : HTTPRequest) (name value : Bytes) :
    AppendQueryParam c r name value = r
    ∨ (AppendQueryParam c r name value).query =
        r.query ++ (if r.query = [] then ascii "?" else ascii "&")
          ++ escapeBytes name ++ ascii "=" ++ escapeBytes value := by
  rcases c with ⟨i, a, b⟩
  cases i
  · left; rfl
  cases a
  · left; rfl
  cases b
  · left; rfl
  · right
    exact AppendQueryParam_query_of_success _ r name value _ _ rfl rfl rfl

theorem AppendFormParam_cases (c : CurlCall) (r : HTTPRequest) (name value : Bytes) :
    AppendFormParam c r name value = r
    ∨ (AppendFormParam c r name value).formData =
        r.formData ++ (if r.formData = [] then [] else ascii "&")
          ++ escapeBytes name ++ ascii "=" ++ escapeBytes value := by
  rcases c with ⟨i, a, b⟩
  cases i
  · left; rfl
  cases a
  · left; rfl
  cases b
  · left; rfl
  · right
    exact AppendFormParam_formData_of_success _ r name value _ _ rfl rfl rfl

theorem validForm_append (s : Bytes) (n v : Bytes) (h : ValidForm s) :
    ValidForm (s ++ (if s = [] then [] else ascii "&")
      ++ escapeBytes n ++ ascii "=" ++ escapeBytes v) := by
  right
  rcases h with rfl | ⟨ps, hne, henc, rfl⟩
  · refine ⟨[(escapeBytes n, escapeBytes v)], by simp, ?_, ?_⟩
    · intro p hp
      rw [List.mem_singleton] at hp
      subst hp
      exact ⟨isEncoded_escapeBytes n, isEncoded_escapeBytes v⟩
    · simp [joinPieces, piece]
  · refine ⟨ps ++ [(escapeBytes n, escapeBytes v)], by simp, ?_, ?_⟩
    · intro p hp
      rcases List.mem_append.mp hp with hp | hp
      · exact henc p hp
      · rw [List.mem_singleton] at hp
        subst hp
        exact ⟨isEncoded_escapeBytes n, isEncoded_escapeBytes v⟩
    · rw [joinPieces_append_one ps _ hne, if_neg (joinPieces_ne_nil ps hne)]
      simp only [piece, List.append_assoc]

theorem validQuery_append (s : Bytes) (n v : Bytes) (h : ValidQuery s) :
    ValidQuery (s ++ (if s = [] then ascii "?" else ascii "&")
      ++ escapeBytes n ++ ascii "=" ++ escapeBytes v) := by
  right
  rcases h with rfl | ⟨ps, hne, henc, rfl⟩
  · refine ⟨[(escapeBytes n, escapeBytes v)], by simp, ?_, ?_⟩
    · intro p hp
      rw [List.mem_singleton] at hp
      subst hp
      exact ⟨isEncoded_escapeBytes n, isEncoded_escapeBytes v⟩
    · simp [joinPieces, piece]
  · refine ⟨ps ++ [(escapeBytes n, escapeBytes v)], by simp, ?_, ?_⟩
    · intro p hp
      rcases List.mem_append.mp hp with hp | hp
      · exact henc p hp
      · rw [List.mem_singleton] at hp
        subst hp
        exact ⟨isEncoded_escapeBytes n, isEncoded_escapeBytes v⟩
    · have hq : ascii "?" ++ joinPieces ps ≠ [] := by rw [ascii_question]; simp
      rw [joinPieces_append_one ps _ hne, if_neg hq]
      simp only [piece, List.append_assoc]

theorem step_valid (w : World) (op : Op)
    (h : ValidQuery w.request.query ∧ ValidForm w.request.formData) :
    ValidQuery (step w op).request.query ∧ ValidForm (step w op).request.formData := by
  cases op with
  | appendQueryParam c name value =>
    show ValidQuery (AppendQueryParam c w.request name value).query
      ∧ ValidForm (AppendQueryParam c w.request name value).formData
    have hf : (AppendQueryParam c w.request name value).formData = w.request.formData := by
      rw [AppendQueryParam_frame]
    rw [hf]
    refine ⟨?_, h.2⟩
    rcases AppendQueryParam_cases c w.request name value with e | e
    · rw [e]; exact h.1
    · rw [e]; exact validQuery_append _ _ _ h.1
  | appendFormParam c name value =>
    show ValidQuery (AppendFormParam c w.request name value).query
      ∧ ValidForm (AppendFormParam c w.request name value).formData
    have hf : (AppendFormParam c w.request name value).query = w.request.query := by
      rw [AppendFormParam_frame]
    rw [hf]
    refine ⟨h.1, ?_⟩
    rcases AppendFormParam_cases c w.request name value with e | e
    · rw [e]; exact h.2
    · rw [e]; exact validForm_append _ _ _ h.2
  | perform method data forward value =>
    simp only [step, Perform_closed]; exact h
  | downloadFile path forward value =>
    simp only [step, DownloadFile_closed]; exact h
  | uploadFile path forward value =>
    simp only [step, UploadFile_closed]; exact h
  | postForm forward value =>
    simp only [step, PostForm_closed]; exact h
  | _ => exact h

theorem run_valid (w : World) (ops : List Op)
    (h : ValidQuery w.request.query ∧ ValidForm w.request.formData) :
    ValidQuery (run w ops).request.query ∧ ValidForm (run w ops).request.formData := by
  induction ops generalizing w with
  | nil => exact h
  | cons op ops ih => exact ih (step w op) (step_valid w op h)

theorem run_append_one (w : World) (ops : List Op) (op : Op) :
    run w (ops ++ [op]) = step (run w ops) op := by
  simp [run, List.foldl_append]

theorem validForm_head (s : Bytes) (h : ValidForm s) : s.head? ≠ some 38 := by
  rcases h with rfl | ⟨ps, hne, henc, rfl⟩
  · simp
  · cases ps with
    | nil => exact absurd rfl hne
    | cons p ps =>
      have hp := (henc p (List.mem_cons_self _ _)).1
      have hstart : ∃ t, joinPieces (p :: ps) = p.1 ++ (61 : Byte) :: t := by
        cases ps with
        | nil => exact ⟨p.2, by rw [joinPieces, piece, ascii_eq]; simp⟩
        | cons q qs =>
          exact ⟨p.2 ++ ascii "&" ++ joinPieces (q :: qs), by
            rw [joinPieces_cons p _ (by simp), piece, ascii_eq]; simp⟩
      obtain ⟨t, ht⟩ := hstart
      rw [ht]
      cases hp1 : p.1 with
      | nil => simp
      | cons x xs =>
        have := (isEncoded_no_reserved p.1 hp x (by rw [hp1]; exact List.mem_cons_self _ _)).1
        simpa using this

/-! ## Successive appends -/

theorem appendFormParams_snoc (r : HTTPRequest) (calls : List (CurlCall × Bytes × Bytes))
    (x : CurlCall × Bytes × Bytes) :
    appendFormParams r (calls ++ [x])
      = AppendFormParam x.1 (appendFormParams r calls) x.2.1 x.2.2 := by
  simp [appendFormParams, List.foldl_append]

theorem appendQueryParams_snoc (r : HTTPRequest) (calls : List (CurlCall × Bytes × Bytes))
    (x : CurlCall × Bytes × Bytes) :
    appendQueryParams r (calls ++ [x])
      = AppendQueryParam x.1 (appendQueryParams r calls) x.2.1 x.2.2 := by
  simp [appendQueryParams, List.foldl_append]

/-- The form body after successful appends to an empty one: the escaped pairs
joined by `&`. -/
theorem appendFormParams_formData (r : HTTPRequest) (hr : r.formData = [])
    (calls : List (CurlCall × Bytes × Bytes))
    (hok : ∀ x ∈ calls, x.1.easy_init = true ∧ x.1.escapeName = true ∧ x.1.escapeValue = true) :
    (appendFormParams r calls).formData
      = joinPieces (calls.map (fun x => (escapeBytes x.2.1, escapeBytes x.2.2))) := by
  induction calls using List.reverseRecOn with
  | nil => exact hr
  | append_singleton l x ih =>
    have hl := ih (fun y hy => hok y (List.mem_append_left _ hy))
    obtain ⟨h1, h2, h3⟩ := hok x (List.mem_append_right _ (List.mem_singleton_self x))
    rw [appendFormParams_snoc,
      AppendFormParam_formData_of_success x.1 _ x.2.1 x.2.2 (escapeBytes x.2.1)
        (escapeBytes x.2.2) h1 (by rw [h2]; rfl) (by rw [h3]; rfl), hl, List.map_append]
    cases l with
    | nil => simp [joinPieces, piece]
    | cons y ys =>
      have hne : ((y :: ys).map (fun x => (escapeBytes x.2.1, escapeBytes x.2.2))) ≠ [] := by
        simp
      rw [List.map_singleton, joinPieces_append_one _ _ hne, if_neg (joinPieces_ne_nil _ hne)]
      simp only [piece, List.append_assoc]

/-- The query string after successful appends to an empty one: empty for no
call, otherwise `?` and the escaped pairs joined by `&`. -/
theorem appendQueryParams_query (r : HTTPRequest) (hr : r.query = [])
    (calls : List (CurlCall × Bytes × Bytes))
    (hok : ∀ x ∈ calls, x.1.easy_init = true ∧ x.1.escapeName = true ∧ x.1.escapeValue = true) :
    (appendQueryParams r calls).query
      = if calls = [] then [] else
          ascii "?" ++ joinPieces (calls.map (fun x => (escapeBytes x.2.1, escapeBytes x.2.2))) := by
  induction calls using List.reverseRecOn with
  | nil => simpa using hr
  | append_singleton l x ih =>
    have hl := ih (fun y hy => hok y (List.mem_append_left _ hy))
    obtain ⟨h1, h2, h3⟩ := hok x (List.mem_append_right _ (List.mem_singleton_self x))
    rw [appendQueryParams_snoc,
      AppendQueryParam_query_of_success x.1 _ x.2.1 x.2.2 (escapeBytes x.2.1)
        (escapeBytes x.2.2) h1 (by rw [h2]; rfl) (by rw [h3]; rfl), hl, List.map_append]
    have hne2 : l ++ [x] ≠ [] := by simp
    rw [if_neg hne2]
    cases l with
    | nil => simp [joinPieces, piece]
    | cons y ys =>
      have hne : ((y :: ys).map (fun x => (escapeBytes x.2.1, escapeBytes x.2.2))) ≠ [] := by
        simp
      have hq : ascii "?" ++ joinPieces
          ((y :: ys).map (fun x => (escapeBytes x.2.1, escapeBytes x.2.2))) ≠ [] := by
        rw [ascii_question]; simp
      rw [if_neg (by simp : y :: ys ≠ []), List.map_singleton, joinPieces_append_one _ _ hne,
        if_neg hq]
      simp only [piece, List.append_assoc]


/-! ## Round trip, invariant, form body -/

/-- C6 fails as stated, in two ways. For the empty sequence nothing is
appended, and the parser, splitting the empty string on `&`, yields one pair
of empty strings instead of no pair. And when `curl_easy_init` returns NULL
the parameter is skipped, so the pair `("a", "b")` does not come back. -/
theorem C6_counterexample :
    (parseQuery (appendQueryParams sampleFresh []).query = [([], [])]
      ∧ parseParams (appendFormParams sampleFresh []).formData = [([], [])]
      ∧ parseQuery (appendQueryParams sampleFresh []).query
          ≠ ([] : List (CurlCall × Bytes × Bytes)).map Prod.snd
      ∧ parseParams (appendFormParams sampleFresh []).formData
          ≠ ([] : List (CurlCall × Bytes × Bytes)).map Prod.snd)
    ∧ (parseQuery (appendQueryParams sampleFresh [(curlNoHandle, ascii "a", ascii "b")]).query
          ≠ [(curlNoHandle, ascii "a", ascii "b")].map Prod.snd
      ∧ parseParams
          (appendFormParams sampleFresh [(curlNoHandle, ascii "a", ascii "b")]).formData
          ≠ [(curlNoHandle, ascii "a", ascii "b")].map Prod.snd) := by
  decide

/-- C6, amended: for every non-empty finite sequence of name/value byte
strings, if every call gets its handle and both of its strings encoded, then
appending the pairs in order to a fresh request with `AppendQueryParam` (resp.
`AppendFormParam`) and parsing the query string without its leading `?` (resp.
the form body) with the standard parser (split on `&`, split each piece at its
first `=`, percent-decode both halves) gives back exactly the pairs, in order. -/
theorem C6_round_trip (d : Defaults) (url : Bytes) (calls : List (CurlCall × Bytes × Bytes))
    (hne : calls ≠ [])
    (hok : ∀ x ∈ calls, x.1.easy_init = true ∧ x.1.escapeName = true ∧ x.1.escapeValue = true) :
    parseQuery (appendQueryParams (newHTTPRequest d url) calls).query = calls.map Prod.snd
    ∧ parseParams (appendFormParams (newHTTPRequest d url) calls).formData
        = calls.map Prod.snd := by
  have hmap : calls.map (fun x => (escapeBytes x.2.1, escapeBytes x.2.2))
      = (calls.map Prod.snd).map (fun p => (escapeBytes p.1, escapeBytes p.2)) := by
    rw [List.map_map]; rfl
  have hsnd : calls.map Prod.snd ≠ [] := fun h => hne (List.map_eq_nil_iff.mp h)
  constructor
  · rw [parseQuery, appendQueryParams_query _ rfl calls hok, if_neg hne, ascii_question,
      List.singleton_append, List.drop_succ_cons, List.drop_zero, hmap,
      parseParams_joinPieces _ hsnd]
  · rw [appendFormParams_formData _ rfl calls hok, hmap, parseParams_joinPieces _ hsnd]

/-- Witness for C6: two pairs full of reserved characters, every call succeeding. -/
theorem C6_round_trip_witness :
    [(curlOk, ascii "a&b=c", ascii "x y#?"), (curlOk, ascii "q", ascii "1")] ≠ []
    ∧ (∀ x ∈ [(curlOk, ascii "a&b=c", ascii "x y#?"), (curlOk, ascii "q", ascii "1")],
      x.1.easy_init = true ∧ x.1.escapeName = true ∧ x.1.escapeValue = true)
    ∧ parseQuery (appendQueryParams (newHTTPRequest sampleDefaults (ascii "http://h/p"))
        [(curlOk, ascii "a&b=c", ascii "x y#?"), (curlOk, ascii "q", ascii "1")]).query
        = [(curlOk, ascii "a&b=c", ascii "x y#?"), (curlOk, ascii "q", ascii "1")].map Prod.snd
    ∧ parseParams (appendFormParams (newHTTPRequest sampleDefaults (ascii "http://h/p"))
        [(curlOk, ascii "a&b=c", ascii "x y#?"), (curlOk, ascii "q", ascii "1")]).formData
        = [(curlOk, ascii "a&b=c", ascii "x y#?"), (curlOk, ascii "q", ascii "1")].map Prod.snd :=
  ⟨by decide, by decide,
    C6_round_trip sampleDefaults (ascii "http://h/p")
      [(curlOk, ascii "a&b=c", ascii "x y#?"), (curlOk, ascii "q", ascii "1")]
      (by decide) (by decide)⟩

/-- C7: in every request reachable from a freshly constructed one by any
sequence of state-changing calls (mutations and perform operations, with
libcurl succeeding or failing at will), the query string is empty or `?`
followed by one or more `name=value` pieces joined by `&`, the form body is
empty or one or more such pieces joined by `&`, every name and value being made
only of unreserved characters and well-formed `%XX` escapes; such a name or
value holds no raw `&`, `=`, `?`, `#` or space. -/
theorem C7_valid_syntax_invariant (d : Defaults) (url : Bytes) (queue : List IHTTPContext)
    (ops : List Op) :
    ValidQuery (run { request := newHTTPRequest d url, queue := queue } ops).request.query
    ∧ ValidForm (run { request := newHTTPRequest d url, queue := queue } ops).request.formData
    ∧ ∀ s : Bytes, isEncoded s = true →
        ∀ b ∈ s, b ≠ 38 ∧ b ≠ 61 ∧ b ≠ 63 ∧ b ≠ 35 ∧ b ≠ 32 := by
  have h := run_valid { request := newHTTPRequest d url, queue := queue } ops
    ⟨Or.inl rfl, Or.inl rfl⟩
  exact ⟨h.1, h.2, isEncoded_no_reserved⟩

/-- C8: when the handle is created and both name and value encode, the new form
body is the old one followed by `&` only if the old one was non-empty, then the
encoded name, `=`, the encoded value, and no other member changes; on a request
reachable from a fresh one the result does not start with the separator `&`. -/
theorem C8_AppendFormParam_appends (c : CurlCall) (r : HTTPRequest)
    (name value escapedName escapedValue : Bytes)
    (hi : c.easy_init = true)
    (hn : curl_easy_escape c.escapeName name = some escapedName)
    (hv : curl_easy_escape c.escapeValue value = some escapedValue) :
    AppendFormParam c r name value =
      { r with formData := r.formData ++ (if r.formData = [] then [] else ascii "&")
          ++ escapedName ++ ascii "=" ++ escapedValue }
    ∧ ∀ (d : Defaults) (url : Bytes) (queue : List IHTTPContext) (ops : List Op),
        r = (run { request := newHTTPRequest d url, queue := queue } ops).request →
        (AppendFormParam c r name value).formData.head? ≠ some 38 := by
  constructor
  · rw [AppendFormParam_frame, AppendFormParam_formData_of_success c r name value _ _ hi hn hv]
  · intro d url queue ops hr
    have h := run_valid { request := newHTTPRequest d url, queue := queue }
      (ops ++ [Op.appendFormParam c name value]) ⟨Or.inl rfl, Or.inl rfl⟩
    rw [run_append_one] at h
    have h2 := h.2
    simp only [step] at h2
    rw [← hr] at h2
    exact validForm_head _ h2

/-- Witness for C8: the second parameter appended to `sampleFresh`. -/
theorem C8_AppendFormParam_appends_witness :
    curlOk.easy_init = true
    ∧ curl_easy_escape curlOk.escapeName (ascii "a b") = some (ascii "a%20b")
    ∧ curl_easy_escape curlOk.escapeValue (ascii "x&y") = some (ascii "x%26y")
    ∧ AppendFormParam curlOk (AppendFormParam curlOk sampleFresh (ascii "q") (ascii "1"))
        (ascii "a b") (ascii "x&y") =
      { AppendFormParam curlOk sampleFresh (ascii "q") (ascii "1") with
        formData := (AppendFormParam curlOk sampleFresh (ascii "q") (ascii "1")).formData
          ++ (if (AppendFormParam curlOk sampleFresh (ascii "q") (ascii "1")).formData = []
              then [] else ascii "&")
          ++ ascii "a%20b" ++ ascii "=" ++ ascii "x%26y" }
    ∧ ∀ (d : Defaults) (url : Bytes) (queue : List IHTTPContext) (ops : List Op),
        AppendFormParam curlOk sampleFresh (ascii "q") (ascii "1")
          = (run { request := newHTTPRequest d url, queue := queue } ops).request →
        (AppendFormParam curlOk (AppendFormParam curlOk sampleFresh (ascii "q") (ascii "1"))
          (ascii "a b") (ascii "x&y")).formData.head? ≠ some 38 :=
  ⟨rfl, by decide, by decide,
    C8_AppendFormParam_appends curlOk _ (ascii "a b") (ascii "x&y") (ascii "a%20b")
      (ascii "x%26y") rfl (by decide) (by decide)⟩

/-! ## Snapshots and frames -/

/-- What a perform operation does: one context goes to the end of the queue,
holding the URL, the five settings and the credentials of the request; of the
request only the header map changes. -/
theorem perform_snapshot (w : World) (p : Op) (hp : p.isPerform = true) :
    ∃ c : IHTTPContext,
      (step w p).queue = w.queue ++ [c]
      ∧ (step w p).request = { w.request with
          headers := w.request.headers.without (ascii "Accept") (ascii "Content-Type") }
      ∧ c.url = BuildURL w.request
      ∧ (∀ s : Setting, c.setting s = s.get w.request)
      ∧ c.useBasicAuth = w.request.useBasicAuth
      ∧ c.username = w.request.username
      ∧ c.password = w.request.password := by
  cases p with
  | perform method data forward value =>
    rw [show step w (Op.perform method data forward value) = _ from Perform_closed w method data forward value]
    exact ⟨_, rfl, rfl, rfl, fun s => by cases s <;> rfl, rfl, rfl, rfl⟩
  | downloadFile path forward value =>
    rw [show step w (Op.downloadFile path forward value) = _ from DownloadFile_closed w path forward value]
    exact ⟨_, rfl, rfl, rfl, fun s => by cases s <;> rfl, rfl, rfl, rfl⟩
  | uploadFile path forward value =>
    rw [show step w (Op.uploadFile path forward value) = _ from UploadFile_closed w path forward value]
    exact ⟨_, rfl, rfl, rfl, fun s => by cases s <;> rfl, rfl, rfl, rfl⟩
  | postForm forward value =>
    rw [show step w (Op.postForm forward value) = _ from PostForm_closed w forward value]
    exact ⟨_, rfl, rfl, rfl, fun s => by cases s <;> rfl, rfl, rfl, rfl⟩
  | _ => simp [Op.isPerform] at hp

/-- A call other than the setter of `s` leaves `s` alone. -/
theorem step_setting (w : World) (o : Op) (s : Setting) (h : o.sets ≠ some s) :
    s.get (step w o).request = s.get w.request := by
  cases o with
  | appendQueryParam c name value =>
    rw [show (step w (Op.appendQueryParam c name value)).request
      = AppendQueryParam c w.request name value from rfl, AppendQueryParam_frame]; cases s <;> rfl
  | appendFormParam c name value =>
    rw [show (step w (Op.appendFormParam c name value)).request
      = AppendFormParam c w.request name value from rfl, AppendFormParam_frame]; cases s <;> rfl
  | perform method data forward value =>
    rw [show step w (Op.perform method data forward value) = _ from Perform_closed w method data forward value]; cases s <;> rfl
  | downloadFile path forward value =>
    rw [show step w (Op.downloadFile path forward value) = _ from DownloadFile_closed w path forward value]; cases s <;> rfl
  | uploadFile path forward value =>
    rw [show step w (Op.uploadFile path forward value) = _ from UploadFile_closed w path forward value]; cases s <;> rfl
  | postForm forward value =>
    rw [show step w (Op.postForm forward value) = _ from PostForm_closed w forward value]; cases s <;> rfl
  | setHeader name value => cases s <;> rfl
  | setBasicAuth u p => cases s <;> rfl
  | setConnectTimeout n => cases s <;> first | rfl | exact absurd rfl h
  | setMaxRedirects n => cases s <;> first | rfl | exact absurd rfl h
  | setMaxRecvSpeed n => cases s <;> first | rfl | exact absurd rfl h
  | setMaxSendSpeed n => cases s <;> first | rfl | exact absurd rfl h
  | setTimeout n => cases s <;> first | rfl | exact absurd rfl h

theorem run_setting (w : World) (ops : List Op) (s : Setting)
    (h : ∀ o ∈ ops, o.sets ≠ some s) :
    s.get (run w ops).request = s.get w.request := by
  induction ops generalizing w with
  | nil => rfl
  | cons o ops ih =>
    show s.get (run (step w o) ops).request = _
    rw [ih (step w o) (fun x hx => h x (List.mem_cons_of_mem _ hx)),
      step_setting w o s (h o (List.mem_cons_self _ _))]

/-- A call other than `SetBasicAuth` leaves the credentials alone. -/
theorem step_auth (w : World) (o : Op) (h : o.isSetBasicAuth = false) :
    (step w o).request.useBasicAuth = w.request.useBasicAuth
    ∧ (step w o).request.username = w.request.username
    ∧ (step w o).request.password = w.request.password := by
  cases o with
  | appendQueryParam c name value =>
    rw [show (step w (Op.appendQueryParam c name value)).request
      = AppendQueryParam c w.request name value from rfl, AppendQueryParam_frame]; exact ⟨rfl, rfl, rfl⟩
  | appendFormParam c name value =>
    rw [show (step w (Op.appendFormParam c name value)).request
      = AppendFormParam c w.request name value from rfl, AppendFormParam_frame]; exact ⟨rfl, rfl, rfl⟩
  | perform method data forward value =>
    rw [show step w (Op.perform method data forward value) = _ from Perform_closed w method data forward value]; exact ⟨rfl, rfl, rfl⟩
  | downloadFile path forward value =>
    rw [show step w (Op.downloadFile path forward value) = _ from DownloadFile_closed w path forward value]; exact ⟨rfl, rfl, rfl⟩
  | uploadFile path forward value =>
    rw [show step w (Op.uploadFile path forward value) = _ from UploadFile_closed w path forward value]; exact ⟨rfl, rfl, rfl⟩
  | postForm forward value =>
    rw [show step w (Op.postForm forward value) = _ from PostForm_closed w forward value]; exact ⟨rfl, rfl, rfl⟩
  | setBasicAuth u p => simp [Op.isSetBasicAuth] at h
  | _ => exact ⟨rfl, rfl, rfl⟩

theorem run_auth (w : World) (ops : List Op) (h : ∀ o ∈ ops, o.isSetBasicAuth = false) :
    (run w ops).request.useBasicAuth = w.request.useBasicAuth
    ∧ (run w ops).request.username = w.request.username
    ∧ (run w ops).request.password = w.request.password := by
  induction ops generalizing w with
  | nil => exact ⟨rfl, rfl, rfl⟩
  | cons o ops ih =>
    have h1 := ih (step w o) (fun x hx => h x (List.mem_cons_of_mem _ hx))
    have h2 := step_auth w o (h o (List.mem_cons_self _ _))
    exact ⟨h1.1.trans h2.1, h1.2.1.trans h2.2.1, h1.2.2.trans h2.2.2⟩

/-- A call only ever adds to the end of the queue. -/
theorem step_queue (w : World) (o : Op) : ∃ more, (step w o).queue = w.queue ++ more := by
  by_cases hp : o.isPerform = true
  · obtain ⟨c, hc, _⟩ := perform_snapshot w o hp
    exact ⟨[c], hc⟩
  · refine ⟨[], ?_⟩
    cases o <;> first | (simp [Op.isPerform] at hp; done) | simp [step]

theorem run_queue (w : World) (ops : List Op) : ∃ more, (run w ops).queue = w.queue ++ more := by
  induction ops generalizing w with
  | nil => exact ⟨[], by simp [run]⟩
  | cons o ops ih =>
    obtain ⟨m1, h1⟩ := step_queue w o
    obtain ⟨m2, h2⟩ := ih (step w o)
    refine ⟨m1 ++ m2, ?_⟩
    show (run (step w o) ops).queue = _
    rw [h2, h1, List.append_assoc]

/-! ## Defaults, credentials, settings, isolation -/

theorem valueOr_of_find_none (m : HTTPHeaderMap) (key dflt : Bytes) (h : m.find key = none) :
    m.valueOr key dflt = dflt := by
  simp only [HTTPHeaderMap.valueOr, h]

/-- The first two lines when the map has neither special key and the defaults
fit in the buffer. -/
theorem BuildHeaders_take_two (r : HTTPRequest) (a c : Bytes)
    (hA : r.headers.find (ascii "Accept") = none)
    (hC : r.headers.find (ascii "Content-Type") = none)
    (ha : (ascii "Accept: " ++ a).length < 8192)
    (hc : (ascii "Content-Type: " ++ c).length < 8192) :
    (BuildHeaders r a c).2.take 2 = [ascii "Accept: " ++ a, ascii "Content-Type: " ++ c] := by
  rw [BuildHeaders_closed, valueOr_of_find_none _ _ _ hA, valueOr_of_find_none _ _ _ hC,
    snprintf_fits _ _ ha, snprintf_fits _ _ hc]
  rfl

/-- C11: when the header map has neither `Accept` nor `Content-Type`, the header
list of the context built by `Perform` begins `Accept: application/json`,
`Content-Type: application/json`; by `DownloadFile` and by `UploadFile`,
`Accept: */*`, `Content-Type: application/octet-stream`; by `PostForm`,
`Accept: application/json`, `Content-Type: application/x-www-form-urlencoded`. -/
theorem C11_operation_defaults (w : World) (method path : Bytes) (data forward : Ptr)
    (value : Int)
    (hA : w.request.headers.find (ascii "Accept") = none)
    (hC : w.request.headers.find (ascii "Content-Type") = none) :
    (∃ c : HTTPRequestContext,
        (Perform w method data forward value).queue = w.queue ++ [.request c]
        ∧ c.headers.take 2
          = [ascii "Accept: application/json", ascii "Content-Type: application/json"])
    ∧ (∃ c : HTTPFileContext,
        (DownloadFile w path forward value).queue = w.queue ++ [.file c]
        ∧ c.headers.take 2
          = [ascii "Accept: */*", ascii "Content-Type: application/octet-stream"])
    ∧ (∃ c : HTTPFileContext,
        (UploadFile w path forward value).queue = w.queue ++ [.file c]
        ∧ c.headers.take 2
          = [ascii "Accept: */*", ascii "Content-Type: application/octet-stream"])
    ∧ (∃ c : HTTPFormContext,
        (PostForm w forward value).queue = w.queue ++ [.form c]
        ∧ c.headers.take 2
          = [ascii "Accept: application/json",
              ascii "Content-Type: application/x-www-form-urlencoded"]) := by
  rw [Perform_closed, DownloadFile_closed, UploadFile_closed, PostForm_closed]
  refine ⟨⟨_, rfl, ?_⟩, ⟨_, rfl, ?_⟩, ⟨_, rfl, ?_⟩, ⟨_, rfl, ?_⟩⟩
  · exact BuildHeaders_take_two _ _ _ hA hC (by decide) (by decide)
  · exact BuildHeaders_take_two _ _ _ hA hC (by decide) (by decide)
  · exact BuildHeaders_take_two _ _ _ hA hC (by decide) (by decide)
  · exact BuildHeaders_take_two _ _ _ hA hC (by decide) (by decide)

/-- Witness for C11: a fresh request, whose map is empty. -/
theorem C11_operation_defaults_witness :
    sampleWorld.request.headers.find (ascii "Accept") = none
    ∧ sampleWorld.request.headers.find (ascii "Content-Type") = none
    ∧ (∃ c : HTTPRequestContext,
        (Perform sampleWorld (ascii "GET") 0 1 42).queue = sampleWorld.queue ++ [.request c]
        ∧ c.headers.take 2
          = [ascii "Accept: application/json", ascii "Content-Type: application/json"])
    ∧ (∃ c : HTTPFileContext,
        (DownloadFile sampleWorld (ascii "file.bin") 1 42).queue = sampleWorld.queue ++ [.file c]
        ∧ c.headers.take 2
          = [ascii "Accept: */*", ascii "Content-Type: application/octet-stream"])
    ∧ (∃ c : HTTPFileContext,
        (UploadFile sampleWorld (ascii "file.bin") 1 42).queue = sampleWorld.queue ++ [.file c]
        ∧ c.headers.take 2
          = [ascii "Accept: */*", ascii "Content-Type: application/octet-stream"])
    ∧ (∃ c : HTTPFormContext,
        (PostForm sampleWorld 1 42).queue = sampleWorld.queue ++ [.form c]
        ∧ c.headers.take 2
          = [ascii "Accept: application/json",
              ascii "Content-Type: application/x-www-form-urlencoded"]) :=
  ⟨by decide, by decide,
    C11_operation_defaults sampleWorld (ascii "GET") (ascii "file.bin") 0 1 42
      (by decide) (by decide)⟩

/-- C12: `SetBasicAuth(u, p)` sets `useBasicAuth` to true and stores `u` and `p`
as they are, changing nothing else; after it, and after any further calls other
than `SetBasicAuth`, the context built by a perform operation carries
`(true, u, p)`; on a fresh request that has seen no `SetBasicAuth` call, the
context built by a perform operation has `useBasicAuth` false. -/
theorem C12_basic_auth (w : World) (u p : Bytes) (ops : List Op) (perf : Op)
    (hops : ∀ o ∈ ops, o.isSetBasicAuth = false) (hperf : perf.isPerform = true) :
    SetBasicAuth w.request u p
        = { w.request with useBasicAuth := true, username := u, password := p }
    ∧ UseBasicAuth (SetBasicAuth w.request u p) = true
    ∧ GetUsername (SetBasicAuth w.request u p) = u
    ∧ GetPassword (SetBasicAuth w.request u p) = p
    ∧ (∃ c : IHTTPContext,
        (step (run (step w (.setBasicAuth u p)) ops) perf).queue
          = (run (step w (.setBasicAuth u p)) ops).queue ++ [c]
        ∧ c.useBasicAuth = true ∧ c.username = u ∧ c.password = p)
    ∧ (∀ (d : Defaults) (url : Bytes) (queue : List IHTTPContext),
        ∃ c : IHTTPContext,
          (step (run { request := newHTTPRequest d url, queue := queue } ops) perf).queue
            = (run { request := newHTTPRequest d url, queue := queue } ops).queue ++ [c]
          ∧ c.useBasicAuth = false) := by
  refine ⟨rfl, rfl, rfl, rfl, ?_, ?_⟩
  · obtain ⟨c, hq, _, _, _, h1, h2, h3⟩ :=
      perform_snapshot (run (step w (.setBasicAuth u p)) ops) perf hperf
    obtain ⟨a1, a2, a3⟩ := run_auth (step w (.setBasicAuth u p)) ops hops
    exact ⟨c, hq, h1.trans a1, h2.trans a2, h3.trans a3⟩
  · intro d url queue
    obtain ⟨c, hq, _, _, _, h1, _, _⟩ :=
      perform_snapshot (run { request := newHTTPRequest d url, queue := queue } ops) perf hperf
    obtain ⟨a1, _, _⟩ := run_auth { request := newHTTPRequest d url, queue := queue } ops hops
    exact ⟨c, hq, h1.trans a1⟩

/-- Witness for C12: `SetBasicAuth("alice", "secret")`, a header set, then `Perform`. -/
theorem C12_basic_auth_witness :
    (∀ o ∈ [Op.setHeader (ascii "X-Token") (ascii "abc")], o.isSetBasicAuth = false)
    ∧ (Op.perform (ascii "GET") 0 1 42).isPerform = true
    ∧ SetBasicAuth sampleWorld.request (ascii "alice") (ascii "secret")
        = { sampleWorld.request with
            useBasicAuth := true, username := ascii "alice", password := ascii "secret" }
    ∧ UseBasicAuth (SetBasicAuth sampleWorld.request (ascii "alice") (ascii "secret")) = true
    ∧ GetUsername (SetBasicAuth sampleWorld.request (ascii "alice") (ascii "secret"))
        = ascii "alice"
    ∧ GetPassword (SetBasicAuth sampleWorld.request (ascii "alice") (ascii "secret"))
        = ascii "secret"
    ∧ (∃ c : IHTTPContext,
        (step (run (step sampleWorld (.setBasicAuth (ascii "alice") (ascii "secret")))
            [Op.setHeader (ascii "X-Token") (ascii "abc")])
          (Op.perform (ascii "GET") 0 1 42)).queue
          = (run (step sampleWorld (.setBasicAuth (ascii "alice") (ascii "secret")))
              [Op.setHeader (ascii "X-Token") (ascii "abc")]).queue ++ [c]
        ∧ c.useBasicAuth = true ∧ c.username = ascii "alice" ∧ c.password = ascii "secret")
    ∧ (∀ (d : Defaults) (url : Bytes) (queue : List IHTTPContext),
        ∃ c : IHTTPContext,
          (step (run { request := newHTTPRequest d url, queue := queue }
              [Op.setHeader (ascii "X-Token") (ascii "abc")])
            (Op.perform (ascii "GET") 0 1 42)).queue
            = (run { request := newHTTPRequest d url, queue := queue }
                [Op.setHeader (ascii "X-Token") (ascii "abc")]).queue ++ [c]
          ∧ c.useBasicAuth = false) :=
  ⟨by decide, rfl,
    C12_basic_auth sampleWorld (ascii "alice") (ascii "secret")
      [Op.setHeader (ascii "X-Token") (ascii "abc")] (Op.perform (ascii "GET") 0 1 42)
      (by decide) rfl⟩

/-- C13: each of the five setters stores `n` as it is, for every integer `n`:
the matching getter then returns `n`, every other member is unchanged, and the
context built by a perform operation, made right away or after further calls
other than that setter, carries `n` in the matching field. -/
theorem C13_scalar_pass_through (w : World) (s : Setting) (n : Int) (ops : List Op) (perf : Op)
    (hops : ∀ o ∈ ops, o.sets ≠ some s) (hperf : perf.isPerform = true) :
    (SetConnectTimeout w.request n = { w.request with connectTimeout := n }
      ∧ GetConnectTimeout (SetConnectTimeout w.request n) = n)
    ∧ (SetMaxRedirects w.request n = { w.request with maxRedirects := n }
      ∧ GetMaxRedirects (SetMaxRedirects w.request n) = n)
    ∧ (SetTimeout w.request n = { w.request with timeout := n }
      ∧ GetTimeout (SetTimeout w.request n) = n)
    ∧ (SetMaxSendSpeed w.request n = { w.request with maxSendSpeed := n }
      ∧ GetMaxSendSpeed (SetMaxSendSpeed w.request n) = n)
    ∧ (SetMaxRecvSpeed w.request n = { w.request with maxRecvSpeed := n }
      ∧ GetMaxRecvSpeed (SetMaxRecvSpeed w.request n) = n)
    ∧ (step w (s.op n)).request = s.set w.request n
    ∧ s.get (s.set w.request n) = n
    ∧ (∀ s2 : Setting, s2 ≠ s → s2.get (s.set w.request n) = s2.get w.request)
    ∧ (∃ c : IHTTPContext,
        (step (run (step w (s.op n)) ops) perf).queue
          = (run (step w (s.op n)) ops).queue ++ [c]
        ∧ c.setting s = n) := by
  refine ⟨⟨rfl, rfl⟩, ⟨rfl, rfl⟩, ⟨rfl, rfl⟩, ⟨rfl, rfl⟩, ⟨rfl, rfl⟩, ?_, ?_, ?_, ?_⟩
  · cases s <;> rfl
  · cases s <;> rfl
  · intro s2 hne
    cases s <;> cases s2 <;> first | rfl | exact absurd rfl hne
  · obtain ⟨c, hq, _, _, hs, _⟩ := perform_snapshot (run (step w (s.op n)) ops) perf hperf
    refine ⟨c, hq, ?_⟩
    rw [hs s, run_setting _ ops s hops]
    cases s <;> rfl

/-- Witness for C13: a negative redirect limit, another setter, then `DownloadFile`. -/
theorem C13_scalar_pass_through_witness :
    (∀ o ∈ [Op.setTimeout 0], o.sets ≠ some Setting.maxRedirects)
    ∧ (Op.downloadFile (ascii "file.bin") 1 42).isPerform = true
    ∧ GetMaxRedirects (SetMaxRedirects sampleWorld.request (-1)) = -1
    ∧ ∃ c : IHTTPContext,
        (step (run (step sampleWorld (Setting.maxRedirects.op (-1))) [Op.setTimeout 0])
          (Op.downloadFile (ascii "file.bin") 1 42)).queue
          = (run (step sampleWorld (Setting.maxRedirects.op (-1))) [Op.setTimeout 0]).queue ++ [c]
        ∧ c.setting Setting.maxRedirects = -1 :=
  ⟨by decide, rfl,
    (C13_scalar_pass_through sampleWorld Setting.maxRedirects (-1) [Op.setTimeout 0]
      (Op.downloadFile (ascii "file.bin") 1 42) (by decide) rfl).2.1.2,
    (C13_scalar_pass_through sampleWorld Setting.maxRedirects (-1) [Op.setTimeout 0]
      (Op.downloadFile (ascii "file.bin") 1 42) (by decide) rfl).2.2.2.2.2.2.2.2⟩

/-- C15: once two perform operations have each put their context in the queue,
no later sequence of mutations and perform operations changes them: the two
contexts (URL, header list, form body, settings, credentials and all) stay
where they are in the queue, as does every context submitted before. -/
theorem C15_snapshot_isolation (w : World) (p1 p2 : Op) (ops : List Op)
    (h1 : p1.isPerform = true) (h2 : p2.isPerform = true) :
    ∃ (c1 c2 : IHTTPContext) (more : List IHTTPContext),
      (step (step w p1) p2).queue = w.queue ++ [c1, c2]
      ∧ (run (step (step w p1) p2) ops).queue = w.queue ++ [c1, c2] ++ more
      ∧ ∀ (i : Nat) (c : IHTTPContext),
          (step (step w p1) p2).queue[i]? = some c →
          (run (step (step w p1) p2) ops).queue[i]? = some c := by
  obtain ⟨c1, hq1, _⟩ := perform_snapshot w p1 h1
  obtain ⟨c2, hq2, _⟩ := perform_snapshot (step w p1) p2 h2
  obtain ⟨more, hm⟩ := run_queue (step (step w p1) p2) ops
  have hq : (step (step w p1) p2).queue = w.queue ++ [c1, c2] := by
    rw [hq2, hq1, List.append_assoc]; rfl
  refine ⟨c1, c2, more, hq, by rw [hm, hq], ?_⟩
  intro i c hi
  rw [hm]
  have hlt : i < (step (step w p1) p2).queue.length := by
    by_contra hge
    rw [List.getElem?_eq_none (by omega)] at hi
    cases hi
  rw [List.getElem?_append_left hlt]
  exact hi

/-- Witness for C15: `Perform`, then `PostForm`, then a header and a parameter
are set and `UploadFile` is called. -/
theorem C15_snapshot_isolation_witness :
    (Op.perform (ascii "GET") 0 1 42).isPerform = true
    ∧ (Op.postForm 2 7).isPerform = true
    ∧ ∃ (c1 c2 : IHTTPContext) (more : List IHTTPContext),
      (step (step sampleWorld (Op.perform (ascii "GET") 0 1 42)) (Op.postForm 2 7)).queue
        = sampleWorld.queue ++ [c1, c2]
      ∧ (run (step (step sampleWorld (Op.perform (ascii "GET") 0 1 42)) (Op.postForm 2 7))
          [Op.setHeader (ascii "Accept") (ascii "text/html"),
           Op.appendQueryParam curlOk (ascii "q") (ascii "a b"),
           Op.uploadFile (ascii "file.bin") 3 9]).queue
        = sampleWorld.queue ++ [c1, c2] ++ more
      ∧ ∀ (i : Nat) (c : IHTTPContext),
          (step (step sampleWorld (Op.perform (ascii "GET") 0 1 42))
            (Op.postForm 2 7)).queue[i]? = some c →
          (run (step (step sampleWorld (Op.perform (ascii "GET") 0 1 42)) (Op.postForm 2 7))
            [Op.setHeader (ascii "Accept") (ascii "text/html"),
             Op.appendQueryParam curlOk (ascii "q") (ascii "a b"),
             Op.uploadFile (ascii "file.bin") 3 9]).queue[i]? = some c :=
  ⟨rfl, rfl,
    C15_snapshot_isolation sampleWorld (Op.perform (ascii "GET") 0 1 42) (Op.postForm 2 7)
      [Op.setHeader (ascii "Accept") (ascii "text/html"),
       Op.appendQueryParam curlOk (ascii "q") (ascii "a b"),
       Op.uploadFile (ascii "file.bin") 3 9] rfl rfl⟩

/-! ## The header map under `SetHeader` -/

theorem replace_entries_present (m : HTTPHeaderMap) (key value : Bytes)
    (h : (m.entries.any (fun e => e.1 == key)) = true) :
    (m.replace key value).entries = HTTPHeaderMap.setValue key value m.entries := by
  unfold HTTPHeaderMap.replace
  rw [dif_pos h]

theorem replace_entries_absent (m : HTTPHeaderMap) (key value : Bytes)
    (h : ¬ (m.entries.any (fun e => e.1 == key)) = true) :
    (m.replace key value).entries = m.entries ++ [(key, value)] := by
  unfold HTTPHeaderMap.replace
  rw [dif_neg h]

theorem mem_setValue (key value : Bytes) (l : List (Bytes × Bytes))
    (h : (l.any (fun e => e.1 == key)) = true) :
    (key, value) ∈ HTTPHeaderMap.setValue key value l := by
  obtain ⟨e, he, hk⟩ := List.any_eq_true.mp h
  have hk2 : e.1 = key := by simpa using hk
  unfold HTTPHeaderMap.setValue
  refine List.mem_map.mpr ⟨e, he, ?_⟩
  simp [hk2]

theorem mem_replace (m : HTTPHeaderMap) (key value : Bytes) :
    (key, value) ∈ (m.replace key value).entries := by
  by_cases h : (m.entries.any (fun e => e.1 == key)) = true
  · rw [replace_entries_present m key value h]
    exact mem_setValue key value _ h
  · rw [replace_entries_absent m key value h]
    simp

theorem any_replace (m : HTTPHeaderMap) (key value : Bytes) :
    ((m.replace key value).entries.any (fun e => e.1 == key)) = true :=
  List.any_eq_true.mpr ⟨(key, value), mem_replace m key value, by simp⟩

theorem setValue_keys (key value : Bytes) (l : List (Bytes × Bytes)) :
    (HTTPHeaderMap.setValue key value l).map Prod.fst = l.map Prod.fst := by
  unfold HTTPHeaderMap.setValue
  rw [List.map_map]
  apply List.map_congr_left
  intro e _
  by_cases he : e.1 = key <;> simp [he]

theorem setValue_others (key value : Bytes) (l : List (Bytes × Bytes)) :
    (HTTPHeaderMap.setValue key value l).filter (fun e => e.1 != key)
      = l.filter (fun e => e.1 != key) := by
  induction l with
  | nil => rfl
  | cons e l ih =>
    unfold HTTPHeaderMap.setValue at ih ⊢
    simp only [beq_iff_eq] at ih
    by_cases he : e.1 = key
    · simp [List.filter_cons, he, ih]
    · simp [List.filter_cons, he, ih]

theorem replace_others (m : HTTPHeaderMap) (key value : Bytes) :
    (m.replace key value).entries.filter (fun e => e.1 != key)
      = m.entries.filter (fun e => e.1 != key) := by
  by_cases h : (m.entries.any (fun e => e.1 == key)) = true
  · rw [replace_entries_present m key value h, setValue_others]
  · rw [replace_entries_absent m key value h, List.filter_append]
    simp

/-- With unique keys, the entries under a key are just the one entry. -/
theorem filter_key_of_mem (l : List (Bytes × Bytes)) (hn : (l.map Prod.fst).Nodup)
    (key value : Bytes) (h : (key, value) ∈ l) :
    l.filter (fun e => e.1 == key) = [(key, value)] := by
  induction l with
  | nil => cases h
  | cons e l ih =>
    rw [List.map_cons, List.nodup_cons] at hn
    rcases List.mem_cons.mp h with he | hl
    · subst he
      have hnone : l.filter (fun e => e.1 == key) = [] := by
        rw [List.filter_eq_nil_iff]
        intro x hx hk
        have hk2 : x.1 = key := by simpa using hk
        exact hn.1 (List.mem_map.mpr ⟨x, hx, hk2⟩)
      simp [List.filter_cons, hnone]
    · have hek : ¬ e.1 = key := by
        intro hk
        exact hn.1 (List.mem_map.mpr ⟨(key, value), hl, hk.symm⟩)
      simp [List.filter_cons, hek, ih hn.2 hl]

theorem find_of_mem (m : HTTPHeaderMap) (key value : Bytes) (h : (key, value) ∈ m.entries) :
    m.find key = some (key, value) := by
  unfold HTTPHeaderMap.find
  cases hf : m.entries.find? (fun e => e.1 == key) with
  | none =>
    rw [List.find?_eq_none] at hf
    have := hf (key, value) h
    simp at this
  | some e =>
    have hm : e ∈ m.entries := List.mem_of_find?_eq_some hf
    have hk : e.1 = key := by simpa using List.find?_some hf
    rw [entry_unique m.nodup hm h hk]

theorem valueOr_of_mem (m : HTTPHeaderMap) (key value dflt : Bytes)
    (h : (key, value) ∈ m.entries) : m.valueOr key dflt = value := by
  simp only [HTTPHeaderMap.valueOr, find_of_mem m key value h]

theorem setValue_setValue (key v1 v2 : Bytes) (l : List (Bytes × Bytes)) :
    HTTPHeaderMap.setValue key v2 (HTTPHeaderMap.setValue key v1 l)
      = HTTPHeaderMap.setValue key v2 l := by
  unfold HTTPHeaderMap.setValue
  rw [List.map_map]
  apply List.map_congr_left
  intro e _
  by_cases he : e.1 = key <;> simp [he]

theorem setValue_absent (key value : Bytes) (l : List (Bytes × Bytes))
    (h : ¬ (l.any (fun e => e.1 == key)) = true) :
    HTTPHeaderMap.setValue key value l = l := by
  unfold HTTPHeaderMap.setValue
  conv_rhs => rw [← List.map_id l]
  apply List.map_congr_left
  intro e he
  have hk : ¬ e.1 = key := fun hk => h (List.any_eq_true.mpr ⟨e, he, by simp [hk]⟩)
  simp [hk]

/-- Setting a header twice is setting it once, to the second value. -/
theorem replace_replace (m : HTTPHeaderMap) (key v1 v2 : Bytes) :
    (m.replace key v1).replace key v2 = m.replace key v2 := by
  apply HTTPHeaderMap.ext_entries
  rw [replace_entries_present _ key v2 (any_replace m key v1)]
  by_cases h : (m.entries.any (fun e => e.1 == key)) = true
  · rw [replace_entries_present m key v1 h, replace_entries_present m key v2 h,
      setValue_setValue]
  · rw [replace_entries_absent m key v1 h, replace_entries_absent m key v2 h]
    unfold HTTPHeaderMap.setValue
    rw [List.map_append, ← HTTPHeaderMap.setValue, setValue_absent key v2 _ h]
    simp

theorem find_setValue_ne (k key value : Bytes) (hne : k ≠ key) (l : List (Bytes × Bytes)) :
    (HTTPHeaderMap.setValue key value l).find? (fun e => e.1 == k)
      = l.find? (fun e => e.1 == k) := by
  induction l with
  | nil => rfl
  | cons e l ih =>
    unfold HTTPHeaderMap.setValue at ih ⊢
    simp only [beq_iff_eq] at ih
    by_cases he : e.1 = key
    · have hk : ¬ e.1 = k := fun h => hne (h.symm.trans he)
      have hk2 : ¬ key = k := fun h => hne h.symm
      simp [List.find?_cons, he, hk2, ih]
    · by_cases hk : e.1 = k
      · subst hk
        simp [List.find?_cons, he]
      · simp [List.find?_cons, he, hk, ih]

theorem find_replace_ne (m : HTTPHeaderMap) (k key value : Bytes) (hne : k ≠ key) :
    (m.replace key value).find k = m.find k := by
  unfold HTTPHeaderMap.find
  by_cases h : (m.entries.any (fun e => e.1 == key)) = true
  · rw [replace_entries_present m key value h, find_setValue_ne k key value hne]
  · rw [replace_entries_absent m key value h, List.find?_append]
    have hk : ¬ key = k := fun h => hne h.symm
    cases m.entries.find? (fun e => e.1 == k) <;> simp [hk]

theorem valueOr_replace_ne (m : HTTPHeaderMap) (k key value dflt : Bytes) (hne : k ≠ key) :
    (m.replace key value).valueOr k dflt = m.valueOr k dflt := by
  simp only [HTTPHeaderMap.valueOr, find_replace_ne m k key value hne]

theorem mem_drop_two_of_mem_rest (r : HTTPRequest) (a c k v : Bytes)
    (hk : (k, v) ∈ r.headers.iter) (h1 : k ≠ ascii "Accept") (h2 : k ≠ ascii "Content-Type") :
    snprintf 8192 (headerText (k, v)) ∈ (BuildHeaders r a c).2.drop 2 := by
  rw [BuildHeaders_closed]
  simp only [List.drop_succ_cons, List.drop_zero]
  refine List.mem_map.mpr ⟨(k, v), List.mem_filter.mpr ⟨hk, ?_⟩, rfl⟩
  simp [h1, h2]

theorem SetHeader_twice_fresh_entries (d : Defaults) (url n v1 v2 : Bytes) :
    (SetHeader (SetHeader (newHTTPRequest d url) n v1) n v2).headers.entries = [(n, v2)] := by
  show ((HTTPHeaderMap.empty.replace n v1).replace n v2).entries = _
  rw [replace_replace, replace_entries_absent _ _ _ (by simp [HTTPHeaderMap.empty])]
  rfl

/-- C14 fails as stated for a value that does not fit the line buffer: after
`SetHeader("X-Pad", "1")` and `SetHeader("X-Pad", v2)` with `v2` of 9000 bytes,
the line emitted for `X-Pad` is `X-Pad: ` followed by the first 8184 bytes of
`v2` only; no emitted line is `X-Pad: ` followed by `v2`. -/
theorem C14_counterexample :
    (BuildHeaders
        (SetHeader (SetHeader sampleFresh (ascii "X-Pad") (ascii "1")) (ascii "X-Pad")
          (List.replicate 9000 97))
        (ascii "application/json") (ascii "application/json")).2
      = [ascii "Accept: application/json", ascii "Content-Type: application/json",
          ascii "X-Pad: " ++ List.replicate 8184 97]
    ∧ ascii "X-Pad: " ++ List.replicate 9000 97
      ∉ (BuildHeaders
          (SetHeader (SetHeader sampleFresh (ascii "X-Pad") (ascii "1")) (ascii "X-Pad")
            (List.replicate 9000 97))
          (ascii "application/json") (ascii "application/json")).2 := by
  have hlist : (BuildHeaders
        (SetHeader (SetHeader sampleFresh (ascii "X-Pad") (ascii "1")) (ascii "X-Pad")
          (List.replicate 9000 97))
        (ascii "application/json") (ascii "application/json")).2
      = [ascii "Accept: application/json", ascii "Content-Type: application/json",
          ascii "X-Pad: " ++ List.replicate 8184 97] := by
    have he := SetHeader_twice_fresh_entries sampleDefaults
      (ascii "https://api.example.com/items") (ascii "X-Pad") (ascii "1")
      (List.replicate 9000 97)
    have hA : (SetHeader (SetHeader sampleFresh (ascii "X-Pad") (ascii "1")) (ascii "X-Pad")
        (List.replicate 9000 97)).headers.find (ascii "Accept") = none := by
      unfold HTTPHeaderMap.find
      rw [show (SetHeader (SetHeader sampleFresh (ascii "X-Pad") (ascii "1")) (ascii "X-Pad")
        (List.replicate 9000 97)).headers.entries = _ from he]
      decide
    have hC : (SetHeader (SetHeader sampleFresh (ascii "X-Pad") (ascii "1")) (ascii "X-Pad")
        (List.replicate 9000 97)).headers.find (ascii "Content-Type") = none := by
      unfold HTTPHeaderMap.find
      rw [show (SetHeader (SetHeader sampleFresh (ascii "X-Pad") (ascii "1")) (ascii "X-Pad")
        (List.replicate 9000 97)).headers.entries = _ from he]
      decide
    rw [BuildHeaders_closed, valueOr_of_find_none _ _ _ hA, valueOr_of_find_none _ _ _ hC,
      show (SetHeader (SetHeader sampleFresh (ascii "X-Pad") (ascii "1")) (ascii "X-Pad")
        (List.replicate 9000 97)).headers.entries = _ from he]
    have hkeep : List.filter (fun e : Bytes × Bytes =>
          e.1 != ascii "Accept" && e.1 != ascii "Content-Type")
          [(ascii "X-Pad", List.replicate 9000 97)]
        = [(ascii "X-Pad", List.replicate 9000 97)] := by
      rw [List.filter_cons_of_pos (by decide)]
      rfl
    have hline : snprintf 8192 (headerText (ascii "X-Pad", List.replicate 9000 97))
        = ascii "X-Pad: " ++ List.replicate 8184 97 := by
      show snprintf 8192 (ascii "X-Pad" ++ ascii ": " ++ List.replicate 9000 97) = _
      rw [snprintf_after _ _ 8192 (by decide), List.take_replicate]
      rfl
    rw [hkeep, List.map_singleton, hline, snprintf_fits _ _ (by decide),
      snprintf_fits _ _ (by decide)]
    rfl
  refine ⟨hlist, ?_⟩
  rw [hlist]
  have h7 : (ascii "X-Pad: ").length = 7 := by decide
  intro hm
  simp only [List.mem_cons, List.mem_singleton, List.not_mem_nil, or_false] at hm
  rcases hm with h | h | h
  · have := congrArg List.length h
    rw [List.length_append, List.length_replicate, h7] at this
    revert this; decide
  · have := congrArg List.length h
    rw [List.length_append, List.length_replicate, h7] at this
    revert this; decide
  · have := congrArg List.length h
    rw [List.length_append, List.length_replicate, List.length_append, List.length_replicate,
      h7] at this
    omega

/-- C14, amended: `SetHeader(n, v1)` followed by `SetHeader(n, v2)` leaves
exactly one entry for `n`, with value `v2`; every entry under another name is
as it was before the two calls; the names are iterated in the order they had
after the first call, so `n` keeps its position; composing headers then emits
exactly one line for `n`, the first 8191 bytes of the text `Accept: v2` (first
line, when `n` is `Accept`), `Content-Type: v2` (second line, when `n` is
`Content-Type`) or `n: v2` (among the remaining lines, otherwise); when that
text is shorter than 8192 bytes the line is the whole text, with value `v2`. -/
theorem C14_SetHeader_last_write_wins (r : HTTPRequest) (n v1 v2 acceptTypes contentType : Bytes) :
    (SetHeader (SetHeader r n v1) n v2).headers.iter.filter (fun e => e.1 == n) = [(n, v2)]
    ∧ (SetHeader (SetHeader r n v1) n v2).headers.find n = some (n, v2)
    ∧ (SetHeader (SetHeader r n v1) n v2).headers.iter.filter (fun e => e.1 != n)
        = r.headers.iter.filter (fun e => e.1 != n)
    ∧ (SetHeader (SetHeader r n v1) n v2).headers.iter.map Prod.fst
        = (SetHeader r n v1).headers.iter.map Prod.fst
    ∧ SetHeader (SetHeader r n v1) n v2 = SetHeader r n v2
    ∧ (∃ rest : List (Bytes × Bytes),
        (BuildHeaders (SetHeader (SetHeader r n v1) n v2) acceptTypes contentType).2
          = (ascii "Accept: "
              ++ (if n = ascii "Accept" then v2
                  else r.headers.valueOr (ascii "Accept") acceptTypes)).take 8191
            :: (ascii "Content-Type: "
              ++ (if n = ascii "Content-Type" then v2
                  else r.headers.valueOr (ascii "Content-Type") contentType)).take 8191
            :: rest.map (fun e => (e.1 ++ ascii ": " ++ e.2).take 8191)
        ∧ rest.filter (fun e => e.1 == n)
            = (if n = ascii "Accept" ∨ n = ascii "Content-Type" then [] else [(n, v2)]))
    ∧ (n = ascii "Accept" → (ascii "Accept: " ++ v2).length < 8192 →
        (BuildHeaders (SetHeader (SetHeader r n v1) n v2) acceptTypes contentType).2[0]?
          = some (ascii "Accept: " ++ v2))
    ∧ (n = ascii "Content-Type" → (ascii "Content-Type: " ++ v2).length < 8192 →
        (BuildHeaders (SetHeader (SetHeader r n v1) n v2) acceptTypes contentType).2[1]?
          = some (ascii "Content-Type: " ++ v2))
    ∧ (n ≠ ascii "Accept" → n ≠ ascii "Content-Type" →
        (n ++ ascii ": " ++ v2).length < 8192 →
        n ++ ascii ": " ++ v2
          ∈ (BuildHeaders (SetHeader (SetHeader r n v1) n v2) acceptTypes contentType).2.drop 2)
    := by
  have hmem := mem_replace (r.headers.replace n v1) n v2
  have hone := filter_key_of_mem _ ((r.headers.replace n v1).replace n v2).nodup n v2 hmem
  have hrr := replace_replace r.headers n v1 v2
  refine ⟨hone, find_of_mem _ n v2 hmem, ?_, ?_, ?_, ?_, ?_, ?_, ?_⟩
  · show ((r.headers.replace n v1).replace n v2).entries.filter _ = r.headers.entries.filter _
    rw [replace_others, replace_others]
  · show ((r.headers.replace n v1).replace n v2).entries.map Prod.fst
      = (r.headers.replace n v1).entries.map Prod.fst
    rw [replace_entries_present _ n v2 (any_replace r.headers n v1), setValue_keys]
  · show ({ r with headers := (r.headers.replace n v1).replace n v2 } : HTTPRequest)
      = { r with headers := r.headers.replace n v2 }
    rw [hrr]
  · refine ⟨((r.headers.replace n v1).replace n v2).entries.filter
      (fun e => e.1 != ascii "Accept" && e.1 != ascii "Content-Type"), ?_, ?_⟩
    · rw [BuildHeaders_closed]
      show snprintf 8192 (ascii "Accept: "
          ++ ((r.headers.replace n v1).replace n v2).valueOr (ascii "Accept") acceptTypes)
        :: snprintf 8192 (ascii "Content-Type: "
          ++ ((r.headers.replace n v1).replace n v2).valueOr (ascii "Content-Type") contentType)
        :: _ = _
      have hA : ((r.headers.replace n v1).replace n v2).valueOr (ascii "Accept") acceptTypes
          = (if n = ascii "Accept" then v2
              else r.headers.valueOr (ascii "Accept") acceptTypes) := by
        by_cases hn : n = ascii "Accept"
        · rw [if_pos hn, ← hn]; exact valueOr_of_mem _ n v2 _ hmem
        · rw [if_neg hn, hrr, valueOr_replace_ne _ _ _ _ _ (fun h => hn h.symm)]
      have hC : ((r.headers.replace n v1).replace n v2).valueOr (ascii "Content-Type")
            contentType
          = (if n = ascii "Content-Type" then v2
              else r.headers.valueOr (ascii "Content-Type") contentType) := by
        by_cases hn : n = ascii "Content-Type"
        · rw [if_pos hn, ← hn]; exact valueOr_of_mem _ n v2 _ hmem
        · rw [if_neg hn, hrr, valueOr_replace_ne _ _ _ _ _ (fun h => hn h.symm)]
      rw [hA, hC]
      rfl
    · rw [List.filter_filter]
      have hcomm : ((r.headers.replace n v1).replace n v2).entries.filter
            (fun e => e.1 == n && (e.1 != ascii "Accept" && e.1 != ascii "Content-Type"))
          = (((r.headers.replace n v1).replace n v2).entries.filter (fun e => e.1 == n)).filter
              (fun e => e.1 != ascii "Accept" && e.1 != ascii "Content-Type") := by
        rw [List.filter_filter]
        congr 1
        funext e
        exact Bool.and_comm _ _
      have hone2 : ((r.headers.replace n v1).replace n v2).entries.filter (fun e => e.1 == n)
          = [(n, v2)] := hone
      rw [hcomm, hone2]
      by_cases hA : n = ascii "Accept"
      · simp [hA]
      · by_cases hC : n = ascii "Content-Type"
        · simp [hC]
        · simp [hA, hC]
  · intro hn hfit
    rw [BuildHeaders_closed, ← hn]
    simp only [List.getElem?_cons_zero]
    rw [show (SetHeader (SetHeader r n v1) n v2).headers.valueOr n acceptTypes = v2 from
      valueOr_of_mem _ n v2 _ hmem, snprintf_fits _ _ hfit]
  · intro hn hfit
    rw [BuildHeaders_closed, ← hn]
    simp only [List.getElem?_cons_succ, List.getElem?_cons_zero]
    rw [show (SetHeader (SetHeader r n v1) n v2).headers.valueOr n contentType = v2 from
      valueOr_of_mem _ n v2 _ hmem, snprintf_fits _ _ hfit]
  · intro hA hC hfit
    have h := mem_drop_two_of_mem_rest (SetHeader (SetHeader r n v1) n v2) acceptTypes
      contentType n v2 hmem hA hC
    rw [show snprintf 8192 (headerText (n, v2)) = n ++ ascii ": " ++ v2 from
      snprintf_fits _ _ hfit] at h
    exact h

/-! ## Scenarios -/

/-- C16: a request constructed with base URL `https://api.example.com/items`,
after `AppendQueryParam("q", "a b")` (libcurl succeeding) and
`Perform("GET", NULL, cb, 42)`, has put in the queue one request context with
URL `https://api.example.com/items?q=a%20b`, method `GET`, no body, callback
`cb`, value 42 and header list `Accept: application/json`,
`Content-Type: application/json`; `AppendFormParam` encodes the space the same
way. -/
theorem C16_end_to_end_query (d : Defaults) (queue : List IHTTPContext) (cb : Ptr) :
    (∃ c : HTTPRequestContext,
      (Perform
        { request := AppendQueryParam curlOk
            (newHTTPRequest d (ascii "https://api.example.com/items")) (ascii "q") (ascii "a b"),
          queue := queue }
        (ascii "GET") 0 cb 42).queue = queue ++ [.request c]
      ∧ c.url = ascii "https://api.example.com/items?q=a%20b"
      ∧ c.method = ascii "GET" ∧ c.data = 0 ∧ c.forward = cb ∧ c.value = 42
      ∧ c.headers = [ascii "Accept: application/json", ascii "Content-Type: application/json"])
    ∧ (AppendFormParam curlOk (newHTTPRequest d (ascii "https://api.example.com/items"))
        (ascii "q") (ascii "a b")).formData = ascii "q=a%20b" := by
  rw [Perform_closed]
  refine ⟨⟨_, rfl, ?_, rfl, rfl, rfl, rfl, ?_⟩, ?_⟩
  · rfl
  · rfl
  · rfl

/-- C17: on a fresh request, `AppendFormParam("name", "é")`, the value being the
two bytes C3 A9 (libcurl succeeding), followed by `PostForm(cb, 7)` puts in the
queue one form context with body `name=%C3%A9`, callback `cb`, value 7 and
header list `Accept: application/json`,
`Content-Type: application/x-www-form-urlencoded`. -/
theorem C17_end_to_end_form (d : Defaults) (url : Bytes) (queue : List IHTTPContext)
    (cb : Ptr) :
    ∃ c : HTTPFormContext,
      (PostForm
        { request := AppendFormParam curlOk (newHTTPRequest d url) (ascii "name") [0xC3, 0xA9],
          queue := queue }
        cb 7).queue = queue ++ [.form c]
      ∧ c.formData = ascii "name=%C3%A9"
      ∧ c.forward = cb ∧ c.value = 7
      ∧ c.headers = [ascii "Accept: application/json",
          ascii "Content-Type: application/x-www-form-urlencoded"] := by
  rw [PostForm_closed]
  refine ⟨_, rfl, ?_, rfl, rfl, ?_⟩
  · rfl
  · rfl

/-! ## Case of header names, line buffer -/

theorem not_contentType_of_like_accept (k : Bytes)
    (h : sameUpToCase k (ascii "Accept") = true) : k ≠ ascii "Content-Type" := by
  intro hk
  subst hk
  revert h
  decide

theorem not_accept_of_like_contentType (k : Bytes)
    (h : sameUpToCase k (ascii "Content-Type") = true) : k ≠ ascii "Accept" := by
  intro hk
  subst hk
  revert h
  decide

/-- C18: header names are matched with their letter case. If the caller set a
header `k` that differs from `Accept` only in letter case and did not set
`Accept`, `BuildHeaders` emits the default as first line and also emits the
caller's header, under the caller's spelling, among the lines after the second;
likewise for `Content-Type` and the second line. -/
theorem C18_case_sensitive_names (r : HTTPRequest) (acceptTypes contentType k v : Bytes)
    (hk : (k, v) ∈ r.headers.iter) :
    (sameUpToCase k (ascii "Accept") = true → k ≠ ascii "Accept" →
      r.headers.find (ascii "Accept") = none →
        (BuildHeaders r acceptTypes contentType).2[0]?
          = some (snprintf 8192 (ascii "Accept: " ++ acceptTypes))
        ∧ snprintf 8192 (k ++ ascii ": " ++ v)
          ∈ (BuildHeaders r acceptTypes contentType).2.drop 2)
    ∧ (sameUpToCase k (ascii "Content-Type") = true → k ≠ ascii "Content-Type" →
      r.headers.find (ascii "Content-Type") = none →
        (BuildHeaders r acceptTypes contentType).2[1]?
          = some (snprintf 8192 (ascii "Content-Type: " ++ contentType))
        ∧ snprintf 8192 (k ++ ascii ": " ++ v)
          ∈ (BuildHeaders r acceptTypes contentType).2.drop 2) := by
  constructor
  · intro hs hne hA
    refine ⟨?_, mem_drop_two_of_mem_rest r _ _ k v hk hne (not_contentType_of_like_accept k hs)⟩
    rw [BuildHeaders_closed, valueOr_of_find_none _ _ _ hA]
    rfl
  · intro hs hne hC
    refine ⟨?_, mem_drop_two_of_mem_rest r _ _ k v hk (not_accept_of_like_contentType k hs) hne⟩
    rw [BuildHeaders_closed, valueOr_of_find_none _ _ _ hC]
    simp only [List.getElem?_cons_succ, List.getElem?_cons_zero]

/-- Witness for C18: the caller set `accept: text/html` on a fresh request; the
`DownloadFile` defaults are composed. -/
theorem C18_case_sensitive_names_witness :
    (ascii "accept", ascii "text/html")
      ∈ (SetHeader sampleFresh (ascii "accept") (ascii "text/html")).headers.iter
    ∧ (BuildHeaders (SetHeader sampleFresh (ascii "accept") (ascii "text/html"))
        (ascii "*/*") (ascii "application/octet-stream")).2[0]?
        = some (snprintf 8192 (ascii "Accept: " ++ ascii "*/*"))
    ∧ snprintf 8192 (ascii "accept" ++ ascii ": " ++ ascii "text/html")
        ∈ (BuildHeaders (SetHeader sampleFresh (ascii "accept") (ascii "text/html"))
            (ascii "*/*") (ascii "application/octet-stream")).2.drop 2 :=
  ⟨by decide,
    (C18_case_sensitive_names (SetHeader sampleFresh (ascii "accept") (ascii "text/html"))
      (ascii "*/*") (ascii "application/octet-stream") (ascii "accept") (ascii "text/html")
      (by decide)).1 (by decide) (by decide) (by decide)⟩

theorem snprintf_length (t : Bytes) : (snprintf 8192 t).length ≤ 8191 := by
  unfold snprintf
  rw [List.length_take]
  omega

theorem snprintf_eq_take_min (t : Bytes) : snprintf 8192 t = t.take (min 8191 t.length) := by
  unfold snprintf
  by_cases h : t.length ≤ 8191
  · rw [Nat.min_eq_right h, List.take_of_length_le (by omega), List.take_of_length_le (le_refl _)]
  · rw [Nat.min_eq_left (by omega)]

theorem snprintf_intact_iff (t : Bytes) : snprintf 8192 t = t ↔ t.length < 8192 := by
  constructor
  · intro h
    have := snprintf_length t
    rw [h] at this
    omega
  · exact snprintf_fits t 8192

/-- C19: every line of the list `BuildHeaders` returns went through the
8192-byte buffer: the list is, line for line, the full texts `Accept: <value>`,
`Content-Type: <value>`, `<name>: <value>` each cut by `snprintf`; a cut line is
at most 8191 bytes long and is the first `min 8191 L` bytes of its full text of
length `L`; it is the full text exactly when `L < 8192`. No line is dropped. -/
theorem C19_line_buffer (r : HTTPRequest) (acceptTypes contentType : Bytes) :
    (BuildHeaders r acceptTypes contentType).2
      = ((ascii "Accept: " ++ r.headers.valueOr (ascii "Accept") acceptTypes)
          :: (ascii "Content-Type: " ++ r.headers.valueOr (ascii "Content-Type") contentType)
          :: (r.headers.iter.filter
                (fun e => e.1 != ascii "Accept" && e.1 != ascii "Content-Type")).map
              (fun e => e.1 ++ ascii ": " ++ e.2)).map (snprintf 8192)
    ∧ (BuildHeaders r acceptTypes contentType).2.length
      = 2 + (r.headers.iter.filter
          (fun e => e.1 != ascii "Accept" && e.1 != ascii "Content-Type")).length
    ∧ (∀ line ∈ (BuildHeaders r acceptTypes contentType).2, line.length ≤ 8191)
    ∧ ∀ t : Bytes, (snprintf 8192 t).length ≤ 8191
        ∧ snprintf 8192 t = t.take (min 8191 t.length)
        ∧ (snprintf 8192 t = t ↔ t.length < 8192)
        ∧ (8192 ≤ t.length → (snprintf 8192 t).length = 8191) := by
  have hlist : (BuildHeaders r acceptTypes contentType).2
      = ((ascii "Accept: " ++ r.headers.valueOr (ascii "Accept") acceptTypes)
          :: (ascii "Content-Type: " ++ r.headers.valueOr (ascii "Content-Type") contentType)
          :: (r.headers.iter.filter
                (fun e => e.1 != ascii "Accept" && e.1 != ascii "Content-Type")).map
              (fun e => e.1 ++ ascii ": " ++ e.2)).map (snprintf 8192) := by
    rw [BuildHeaders_closed]
    simp only [List.map_cons, List.map_map, HTTPHeaderMap.iter]
    rfl
  refine ⟨hlist, ?_, ?_, ?_⟩
  · rw [hlist]
    simp only [List.length_map, List.length_cons]
    omega
  · intro line hl
    rw [hlist] at hl
    obtain ⟨t, _, rfl⟩ := List.mem_map.mp hl
    exact snprintf_length t
  · intro t
    refine ⟨snprintf_length t, snprintf_eq_take_min t, snprintf_intact_iff t, ?_⟩
    intro h
    unfold snprintf
    rw [List.length_take]
    omega

end RipExt
